import Mathlib

/-!
Verification of the fubble usage-based billing engine.

This file embeds the core billing pipeline of the fubble repository in Lean:
the 11-variant pricing evaluator (`calculate_charge_for_component` in
`fubble/core/billing.py`), commitment minimums, invoice assembly, the credit
engine (`fubble/core/billing.py` and `fubble/core/credits.py`), invoice
lifecycle operations (`fubble/core/invoices.py`), billing-period generation,
and the composite-metric formula path (`fubble/core/metrics.py`).

Modelling conventions:
* Python floats are modelled as rationals (`ℚ`); monetary arithmetic in the
  source is ordinary binary-float arithmetic, and all claims under study are
  about exact small decimal values, so `ℚ` is the faithful idealization.
* A JSON `pricing_details` payload is modelled by a record of `Option` fields:
  `none` means the key is absent.  A mandatory `dict[key]` access on an absent
  key raises `KeyError`; fallible code therefore returns `Except PyErr`.
* UTC instants are modelled as rationals where only their ordering matters;
  calendar dates get their own type where day/month arithmetic matters.
* Human-readable description strings built by the source are not modelled;
  only the numeric outputs (charge, unit price, quantities) are.
-/

namespace Fubble

/-- Exceptions the embedded Python code can raise. -/
inductive PyErr where
  | keyError
  | indexError
  | zeroDivisionError
  | valueError
  | integrityError
  deriving DecidableEq, Repr

/-- One entry of the `tiers` list of a tiered/volume/graduated component, as
stored in JSON: every key may be absent. -/
structure RawTier where
  start : Option ℚ := none
  tier_end : Option ℚ := none
  price : Option ℚ := none
  deriving DecidableEq, Repr

/-- One entry of the `thresholds` list of a threshold component. -/
structure RawThreshold where
  threshold : Option ℚ := none
  price : Option ℚ := none
  deriving DecidableEq, Repr

/-- The JSON `pricing_details` payload of a price component.  `none` models an
absent key. -/
structure RawDetails where
  amount : Option ℚ := none
  tiers : Option (List RawTier) := none
  package_size : Option ℚ := none
  package_price : Option ℚ := none
  thresholds : Option (List RawThreshold) := none
  base_fee : Option ℚ := none
  usage_price : Option ℚ := none
  rate_per_unit : Option ℚ := none
  base_rate : Option ℚ := none
  dimensions : Option (List (String × List (String × ℚ))) := none
  deriving DecidableEq, Repr

/-- The `PricingType` enumeration of `fubble/database/models.py`. -/
inductive PricingType where
  | flat
  | tiered
  | volume
  | package
  | graduated
  | threshold
  | subscription
  | usage_based_subscription
  | dynamic
  | time_based
  | dimension_based
  deriving DecidableEq, Repr

deriving instance DecidableEq for Except

/-- Mandatory Python dict access `d[key]`: raises `KeyError` when absent. -/
def req {α : Type} (o : Option α) : Except PyErr α :=
  match o with
  | some a => Except.ok a
  | none => Except.error PyErr.keyError

/-- The tier loop of the `TIERED` branch of `calculate_charge_for_component`
(billing.py lines 125-158), including the raw dict accesses: for each tier the
source reads `tier.get("start", 0)`, `tier.get("end")` and `tier["price"]`
(the last one raising `KeyError` when absent) before the skip test, skips
bounded tiers whose start exceeds the usage, charges
`min(remaining, end - start)` (or all remaining usage for an unbounded tier),
and breaks as soon as the remaining usage is `≤ 0`. -/
def rawTieredLoop (usage_quantity : ℚ) : ℚ → List RawTier → Except PyErr ℚ
  | _, [] => Except.ok 0
  | remaining_usage, tier :: rest => do
    let tier_start := tier.start.getD 0
    let tier_price ← req tier.price
    if tier.tier_end.isSome ∧ tier_start > usage_quantity then
      rawTieredLoop usage_quantity remaining_usage rest
    else
      let tier_usage := match tier.tier_end with
        | none => remaining_usage
        | some e => min remaining_usage (e - tier_start)
      let tier_charge := tier_usage * tier_price
      if remaining_usage - tier_usage ≤ 0 then
        Except.ok tier_charge
      else do
        let rest_charge ← rawTieredLoop usage_quantity (remaining_usage - tier_usage) rest
        Except.ok (tier_charge + rest_charge)

/-- Scan of the volume/graduated branches: iterate the tiers in reverse and
pick the first whose `start` (default 0) is `≤ q`. -/
def findAppliedTier (usage_quantity : ℚ) (tiers : List RawTier) : Option RawTier :=
  tiers.reverse.find? (fun t => decide (t.start.getD 0 ≤ usage_quantity))

/-- Fallback of the volume/graduated branches: when no tier matched the source
uses `tiers[0]`, raising `IndexError` on an empty list. -/
def appliedOrFirst (usage_quantity : ℚ) (tiers : List RawTier) :
    Except PyErr RawTier :=
  match findAppliedTier usage_quantity tiers with
  | some t => Except.ok t
  | none =>
    match tiers with
    | [] => Except.error PyErr.indexError
    | t :: _ => Except.ok t

/-- Accumulation of the `THRESHOLD` branch: for every entry the source reads
`threshold["threshold"]` and `threshold["price"]` and adds the price when the
usage has crossed the threshold. -/
def thresholdLoop (usage_quantity : ℚ) : List RawThreshold → Except PyErr ℚ
  | [] => Except.ok 0
  | t :: rest => do
    let threshold_value ← req t.threshold
    let threshold_price ← req t.price
    let rest_charge ← thresholdLoop usage_quantity rest
    if usage_quantity ≥ threshold_value then
      Except.ok (threshold_price + rest_charge)
    else
      Except.ok rest_charge

/-- Rate accumulation of the `DIMENSION_BASED` branch: for each dimension the
source reads `dimension_config.get(dimension_name, 0)` (the config keyed by
the dimension's own name) and `dimension_config.get("multiplier", 1)` and
multiplies the rate by `1 + value * multiplier`. -/
def dimensionRate (base_rate : ℚ) : List (String × List (String × ℚ)) → ℚ
  | [] => base_rate
  | (dimension_name, config) :: rest =>
    let dimension_value := (config.lookup dimension_name).getD 0
    let dimension_multiplier := (config.lookup "multiplier").getD 1
    dimensionRate (base_rate * (1 + dimension_value * dimension_multiplier)) rest

/-- Embedding of `BillingEngine.calculate_charge_for_component`
(billing.py lines 95-331).  Returns `(total_charge, effective_unit_price)`;
the description string built by the source is not modelled.  Any mandatory
dict access on an absent key, `tiers[0]` on an empty list, or the float floor
division by a zero `package_size` surfaces as `Except.error`, exactly where
the Python code raises. -/
def calculate_charge_for_component (pricing_type : PricingType)
    (pricing_details : RawDetails) (usage_quantity : ℚ) :
    Except PyErr (ℚ × ℚ) :=
  match pricing_type with
  | PricingType.flat => do
    let amount ← req pricing_details.amount
    Except.ok (amount, amount)
  | PricingType.tiered => do
    let tiers ← req pricing_details.tiers
    let total_charge ← rawTieredLoop usage_quantity usage_quantity tiers
    let effective_unit_price :=
      if usage_quantity > 0 then total_charge / usage_quantity else 0
    Except.ok (total_charge, effective_unit_price)
  | PricingType.volume => do
    let tiers ← req pricing_details.tiers
    let applied_tier ← appliedOrFirst usage_quantity tiers
    let price ← req applied_tier.price
    Except.ok (usage_quantity * price, price)
  | PricingType.package => do
    let package_size ← req pricing_details.package_size
    let package_price ← req pricing_details.package_price
    if package_size = 0 then
      Except.error PyErr.zeroDivisionError
    else
      let num_packages : ℚ :=
        ((usage_quantity + package_size - 1) / package_size).floor
      let total_charge := num_packages * package_price
      let effective_unit_price :=
        if usage_quantity > 0 then total_charge / usage_quantity else 0
      Except.ok (total_charge, effective_unit_price)
  | PricingType.graduated => do
    let tiers ← req pricing_details.tiers
    let applied_tier ← appliedOrFirst usage_quantity tiers
    let price ← req applied_tier.price
    -- the source's description f-string reads applied_tier["start"], raising
    -- KeyError when that key is absent
    let _tier_start ← req applied_tier.start
    Except.ok (usage_quantity * price, price)
  | PricingType.threshold => do
    let thresholds ← req pricing_details.thresholds
    let total_charge ← thresholdLoop usage_quantity thresholds
    let effective_unit_price :=
      if usage_quantity > 0 then total_charge / usage_quantity else 0
    Except.ok (total_charge, effective_unit_price)
  | PricingType.subscription => do
    let amount ← req pricing_details.amount
    Except.ok (amount, amount)
  | PricingType.usage_based_subscription =>
    let base_fee := pricing_details.base_fee.getD 0
    let usage_price := pricing_details.usage_price.getD 0
    let total_charge := base_fee + usage_quantity * usage_price
    let effective_unit_price :=
      if usage_quantity > 0 then total_charge / usage_quantity else base_fee
    Except.ok (total_charge, effective_unit_price)
  | PricingType.time_based =>
    let rate_per_unit := pricing_details.rate_per_unit.getD 0
    Except.ok (usage_quantity * rate_per_unit, rate_per_unit)
  | PricingType.dimension_based =>
    let base_rate := pricing_details.base_rate.getD 0
    let dims := pricing_details.dimensions.getD []
    let total_rate := dimensionRate base_rate dims
    Except.ok (usage_quantity * total_rate, total_rate)
  | PricingType.dynamic =>
    let base_rate := pricing_details.base_rate.getD 0
    Except.ok (usage_quantity * base_rate, base_rate)

end Fubble

namespace Fubble

/-- A fully-typed tier: `price` present, `start` defaulted.  Mirrors what the
tier loop reads from a well-formed JSON tier. -/
structure Tier where
  start : ℚ
  tier_end : Option ℚ
  price : ℚ
  deriving DecidableEq, Repr

/-- Interpretation of a raw JSON tier as a typed tier: defined exactly when
the mandatory `price` key is present. -/
def toTier (r : RawTier) : Option Tier :=
  r.price.map (fun p => ⟨r.start.getD 0, r.tier_end, p⟩)

/-- The tier loop of the `TIERED` branch on typed tiers (same control flow as
`rawTieredLoop`, which cannot raise once every tier has a price). -/
def tieredLoop (usage_quantity : ℚ) : ℚ → List Tier → ℚ
  | _, [] => 0
  | remaining_usage, t :: rest =>
    if t.tier_end.isSome ∧ t.start > usage_quantity then
      tieredLoop usage_quantity remaining_usage rest
    else
      let tier_usage := match t.tier_end with
        | none => remaining_usage
        | some e => min remaining_usage (e - t.start)
      if remaining_usage - tier_usage ≤ 0 then
        tier_usage * t.price
      else
        tier_usage * t.price + tieredLoop usage_quantity (remaining_usage - tier_usage) rest

/-- On a tier list whose entries all carry a price, the raw loop never raises
and agrees with the typed loop. -/
theorem rawTieredLoop_eq_tieredLoop (q : ℚ) :
    ∀ (raws : List RawTier) (tiers : List Tier) (rem : ℚ),
      raws.mapM toTier = some tiers →
      rawTieredLoop q rem raws = Except.ok (tieredLoop q rem tiers) := by
  intro raws
  induction raws with
  | nil =>
    intro tiers rem h
    simp only [List.mapM_nil, Option.pure_def, Option.some.injEq] at h
    subst h
    simp [rawTieredLoop, tieredLoop]
  | cons r rs ih =>
    intro tiers rem h
    simp only [List.mapM_cons, Option.pure_def, Option.bind_eq_bind,
      Option.bind_eq_some, Option.some.injEq] at h
    obtain ⟨t, ht, ts, hts, rfl⟩ := h
    obtain ⟨p, hp, rfl⟩ : ∃ p, r.price = some p ∧ (⟨r.start.getD 0, r.tier_end, p⟩ : Tier) = t := by
      cases hr : r.price with
      | none => simp [toTier, hr] at ht
      | some p => exact ⟨p, rfl, by simpa [toTier, hr] using ht⟩
    simp only [rawTieredLoop, tieredLoop, req, hp, bind, Except.bind]
    split
    · exact ih ts rem hts
    · split
      · rfl
      · rw [ih ts _ hts]

/-- Usage falling into one tier when `q` total units are priced marginally:
the part of `[start, end)` (or `[start, ∞)`) below `q`. -/
def tierUsage (q : ℚ) (t : Tier) : ℚ :=
  match t.tier_end with
  | some e => max 0 (min q e - t.start)
  | none => max 0 (q - t.start)

/-- Marginal total: each tier charges its own slice of the usage. -/
def tieredMarginalTotal (q : ℚ) (tiers : List Tier) : ℚ :=
  (tiers.map (fun t => tierUsage q t * t.price)).sum

/-- The claim's phrasing of marginal pricing: every tier with `start ≤ q`
charges `min(q_remaining, end - start)` units (all remaining units for the
unbounded tier), where contiguity makes `q_remaining = q - start`. -/
def tieredClaimTotal (q : ℚ) (tiers : List Tier) : ℚ :=
  (tiers.map (fun t =>
    if t.start ≤ q then
      (match t.tier_end with
       | some e => min (q - t.start) (e - t.start)
       | none => q - t.start) * t.price
    else 0)).sum

/-- Well-formed tier list starting at `s`: the first tier starts at `s`, each
bounded tier is non-degenerate and is followed by a tier starting at its end,
and only the last tier may be unbounded. -/
def chainedFrom (s : ℚ) : List Tier → Prop
  | [] => True
  | t :: rest =>
    t.start = s ∧
    match t.tier_end with
    | none => rest = []
    | some e => s < e ∧ chainedFrom e rest

/-- Every tier in a chain starting at `s` starts at or after `s`. -/
theorem chainedFrom_start_le {s : ℚ} :
    ∀ {tiers : List Tier}, chainedFrom s tiers → ∀ t ∈ tiers, s ≤ t.start := by
  intro tiers
  induction tiers generalizing s with
  | nil => intro _ t ht; cases ht
  | cons t0 rest ih =>
    intro h t ht
    obtain ⟨hstart, h2⟩ := h
    rcases List.mem_cons.mp ht with rfl | ht
    · exact le_of_eq hstart.symm
    · cases he : t0.tier_end with
      | none =>
        rw [he] at h2
        rw [h2] at ht
        cases ht
      | some e =>
        rw [he] at h2
        exact le_trans (le_of_lt (hstart ▸ h2.1)) (ih h2.2 t ht)

/-- Tiers entirely above the usage contribute nothing to the marginal total. -/
theorem tieredMarginalTotal_eq_zero {s q : ℚ} {tiers : List Tier}
    (hc : chainedFrom s tiers) (hq : q ≤ s) :
    tieredMarginalTotal q tiers = 0 := by
  unfold tieredMarginalTotal
  rw [List.sum_eq_zero]
  intro x hx
  simp only [List.mem_map] at hx
  obtain ⟨t, ht, rfl⟩ := hx
  have hst : s ≤ t.start := chainedFrom_start_le hc t ht
  cases he : t.tier_end with
  | none =>
    have h1 : q - t.start ≤ 0 := by linarith
    simp [tierUsage, he, max_eq_left h1]
  | some e =>
    have h1 : min q e - t.start ≤ 0 := by
      have := min_le_left q e
      linarith
    simp [tierUsage, he, max_eq_left h1]

/-- Closed form of the source's tier loop: on a well-formed chain starting at
`s` and with `q - s` units remaining, the loop computes the marginal total. -/
theorem tieredLoop_eq_marginal :
    ∀ (tiers : List Tier) (s q : ℚ), chainedFrom s tiers → s ≤ q →
      tieredLoop q (q - s) tiers = tieredMarginalTotal q tiers := by
  intro tiers
  induction tiers with
  | nil => intro s q _ _; simp [tieredLoop, tieredMarginalTotal]
  | cons t rest ih =>
    intro s q hc hq
    obtain ⟨hstart, h2⟩ := hc
    subst hstart
    cases he : t.tier_end with
    | none =>
      rw [he] at h2
      subst h2
      simp only [tieredLoop, he, Option.isSome_none, Bool.false_eq_true, false_and,
        if_false, tieredMarginalTotal, tierUsage, List.map_cons, List.map_nil,
        List.sum_cons, List.sum_nil, add_zero]
      rw [if_pos (by linarith : q - t.start - (q - t.start) ≤ 0)]
      rw [max_eq_right (by linarith : (0:ℚ) ≤ q - t.start)]
    | some e =>
      rw [he] at h2
      obtain ⟨hlt, hrest⟩ := h2
      have hhead : tierUsage q t = max 0 (min q e - t.start) := by
        simp [tierUsage, he]
      simp only [tieredLoop, he, tieredMarginalTotal, List.map_cons, List.sum_cons]
      rw [if_neg (by simp only [Option.isSome_some, true_and]; exact not_lt.mpr hq),
        hhead]
      rcases le_or_lt q e with hqe | hqe
      · -- usage ends inside this tier: the loop breaks here
        have humin : min (q - t.start) (e - t.start) = q - t.start :=
          min_eq_left (by linarith)
        rw [humin]
        rw [if_pos (by linarith : q - t.start - (q - t.start) ≤ 0)]
        have hrest0 : tieredMarginalTotal q rest = 0 :=
          tieredMarginalTotal_eq_zero hrest hqe
        unfold tieredMarginalTotal at hrest0
        rw [hrest0, add_zero, min_eq_left hqe,
          max_eq_right (by linarith : (0:ℚ) ≤ q - t.start)]
      · -- usage spills past this tier: charge the full tier and continue
        have humin : min (q - t.start) (e - t.start) = e - t.start :=
          min_eq_right (by linarith)
        rw [humin]
        rw [if_neg (by linarith : ¬(q - t.start - (e - t.start) ≤ 0))]
        have hstep : q - t.start - (e - t.start) = q - e := by ring
        rw [hstep, ih e q hrest (le_of_lt hqe), min_eq_right (le_of_lt hqe),
          max_eq_right (by linarith : (0:ℚ) ≤ e - t.start)]
        rfl

/-- Every bounded tier in a chain is non-degenerate. -/
theorem chainedFrom_start_lt_end {s : ℚ} :
    ∀ {tiers : List Tier}, chainedFrom s tiers →
      ∀ t ∈ tiers, ∀ e, t.tier_end = some e → t.start < e := by
  intro tiers
  induction tiers generalizing s with
  | nil => intro _ t ht; cases ht
  | cons t0 rest ih =>
    intro h t ht e he
    obtain ⟨hstart, h2⟩ := h
    rcases List.mem_cons.mp ht with rfl | ht
    · rw [he] at h2
      exact hstart ▸ h2.1
    · cases he0 : t0.tier_end with
      | none =>
        rw [he0] at h2
        rw [h2] at ht
        cases ht
      | some e0 =>
        rw [he0] at h2
        exact ih h2.2 t ht e he

/-- On a well-formed chain the claim's per-tier formula agrees with the
marginal per-tier slices. -/
theorem tieredClaimTotal_eq_marginal {q : ℚ} {tiers : List Tier}
    (hc : chainedFrom 0 tiers) (hq : 0 ≤ q) :
    tieredClaimTotal q tiers = tieredMarginalTotal q tiers := by
  unfold tieredClaimTotal tieredMarginalTotal
  congr 1
  apply List.map_congr_left
  intro t ht
  have hs0 : (0:ℚ) ≤ t.start := chainedFrom_start_le hc t ht
  by_cases hsq : t.start ≤ q
  · rw [if_pos hsq]
    cases he : t.tier_end with
    | none =>
      have hR : tierUsage q t = max 0 (q - t.start) := by simp [tierUsage, he]
      rw [hR, max_eq_right (by linarith : (0:ℚ) ≤ q - t.start)]
    | some e =>
      have hse : t.start < e := chainedFrom_start_lt_end hc t ht e he
      have hR : tierUsage q t = max 0 (min q e - t.start) := by simp [tierUsage, he]
      rw [hR]
      have h1 : min q e - t.start = min (q - t.start) (e - t.start) :=
        (min_sub_sub_right q e t.start).symm
      have h2 : (0:ℚ) ≤ min (q - t.start) (e - t.start) :=
        le_min (by linarith) (by linarith)
      rw [h1, max_eq_right h2]
  · rw [if_neg hsq]
    push_neg at hsq
    cases he : t.tier_end with
    | none =>
      have hR : tierUsage q t = max 0 (q - t.start) := by simp [tierUsage, he]
      rw [hR, max_eq_left (by linarith : q - t.start ≤ 0), zero_mul]
    | some e =>
      have hR : tierUsage q t = max 0 (min q e - t.start) := by simp [tierUsage, he]
      have h1 : min q e - t.start ≤ 0 := by
        have := min_le_left q e
        linarith
      rw [hR, max_eq_left h1, zero_mul]

/-- The three-tier schedule of the claim's worked example:
0-1000 at dollars 0.01, 1000-10000 at dollars 0.005, 10000-inf at 0.002. -/
def exampleTieredDetails : RawDetails :=
  { tiers := some
      [{ start := some 0, tier_end := some 1000, price := some (1/100) },
       { start := some 1000, tier_end := some 10000, price := some (1/200) },
       { start := some 10000, tier_end := none, price := some (1/500) }] }

/-- Typed view of the example schedule. -/
def exampleTypedTiers : List Tier :=
  [⟨0, some 1000, 1/100⟩, ⟨1000, some 10000, 1/200⟩, ⟨10000, none, 1/500⟩]

/-- General form of the tiered branch: the evaluator returns the claim's
marginal sum and the charge-over-usage unit price. -/
theorem tiered_eval_eq_claimTotal
    (d : RawDetails) (raws : List RawTier) (tiers : List Tier) (q : ℚ)
    (hd : d.tiers = some raws)
    (ht : raws.mapM toTier = some tiers)
    (hc : chainedFrom 0 tiers)
    (hq : 0 ≤ q) :
    calculate_charge_for_component PricingType.tiered d q =
      Except.ok (tieredClaimTotal q tiers,
        if q = 0 then 0 else tieredClaimTotal q tiers / q) := by
  have hraw : rawTieredLoop q q raws = Except.ok (tieredLoop q q tiers) :=
    rawTieredLoop_eq_tieredLoop q raws tiers q ht
  have hloop : tieredLoop q q tiers = tieredMarginalTotal q tiers := by
    have h := tieredLoop_eq_marginal tiers 0 q hc hq
    rwa [sub_zero] at h
  have hclaim := tieredClaimTotal_eq_marginal hc hq
  simp only [calculate_charge_for_component, hd, req, bind, Except.bind, hraw,
    hloop, hclaim, Except.ok.injEq, Prod.mk.injEq, true_and]
  rcases eq_or_lt_of_le hq with h0 | h0
  · rw [if_neg (by rw [← h0]; exact lt_irrefl 0), if_pos h0.symm]
  · rw [if_pos h0, if_neg (ne_of_gt h0)]

/-- The typed example tiers form a well-formed chain. -/
theorem exampleTypedTiers_chained : chainedFrom 0 exampleTypedTiers := by
  refine ⟨rfl, ?_⟩
  show (0:ℚ) < 1000 ∧ _
  refine ⟨by norm_num, rfl, ?_⟩
  show (1000:ℚ) < 10000 ∧ _
  exact ⟨by norm_num, rfl, rfl⟩

/-- C1: tiered pricing is marginal.  For a tiered component whose tier list is
a well-formed chain from 0 and any usage `q ≥ 0`, the evaluator's charge is
the claim's per-tier sum (each tier with `start ≤ q` charges
`min(q_remaining, end - start)` — or all remaining units when unbounded — at
its own price) and the unit price is `charge / q` (0 when `q = 0`); and on the
worked example `[0-1000 @ 0.01, 1000-10000 @ 0.005, 10000-inf @ 0.002]` with
`q = 1500` the charge is 12.50 and the unit price is `12.5 / 1500`. -/
theorem tiered_pricing_is_marginal
    (d : RawDetails) (raws : List RawTier) (tiers : List Tier) (q : ℚ)
    (hd : d.tiers = some raws)
    (ht : raws.mapM toTier = some tiers)
    (hc : chainedFrom 0 tiers)
    (hq : 0 ≤ q) :
    calculate_charge_for_component PricingType.tiered d q =
      Except.ok (tieredClaimTotal q tiers,
        if q = 0 then 0 else tieredClaimTotal q tiers / q) ∧
    calculate_charge_for_component PricingType.tiered exampleTieredDetails 1500 =
      Except.ok (25/2, (25/2) / 1500) := by
  constructor
  · exact tiered_eval_eq_claimTotal d raws tiers q hd ht hc hq
  · have h := tiered_eval_eq_claimTotal exampleTieredDetails
      [{ start := some 0, tier_end := some 1000, price := some (1/100) },
       { start := some 1000, tier_end := some 10000, price := some (1/200) },
       { start := some 10000, tier_end := none, price := some (1/500) }]
      exampleTypedTiers 1500 rfl rfl exampleTypedTiers_chained (by norm_num)
    rw [h]
    have htot : tieredClaimTotal 1500 exampleTypedTiers = 25/2 := by
      simp [tieredClaimTotal, exampleTypedTiers]
      norm_num [min_def]
    rw [htot]
    norm_num

/-- Witness for `tiered_pricing_is_marginal` at the worked example. -/
theorem tiered_pricing_is_marginal_witness :
    calculate_charge_for_component PricingType.tiered exampleTieredDetails 1500 =
      Except.ok (25/2, (25/2) / 1500) :=
  (tiered_pricing_is_marginal exampleTieredDetails
    [{ start := some 0, tier_end := some 1000, price := some (1/100) },
     { start := some 1000, tier_end := some 10000, price := some (1/200) },
     { start := some 10000, tier_end := none, price := some (1/500) }]
    exampleTypedTiers 1500 rfl rfl exampleTypedTiers_chained (by norm_num)).2

/-- Each tier's marginal slice grows with the usage. -/
theorem tierUsage_mono {q1 q2 : ℚ} (hq : q1 ≤ q2) (t : Tier) :
    tierUsage q1 t ≤ tierUsage q2 t := by
  unfold tierUsage
  cases t.tier_end with
  | none => exact max_le_max le_rfl (by linarith)
  | some e =>
    exact max_le_max le_rfl (sub_le_sub_right (min_le_min hq le_rfl) t.start)

/-- With non-negative tier prices the marginal total grows with the usage. -/
theorem tieredMarginalTotal_mono {q1 q2 : ℚ} (hq : q1 ≤ q2) :
    ∀ {tiers : List Tier}, (∀ t ∈ tiers, 0 ≤ t.price) →
      tieredMarginalTotal q1 tiers ≤ tieredMarginalTotal q2 tiers := by
  intro tiers
  induction tiers with
  | nil => intro _; simp [tieredMarginalTotal]
  | cons t rest ih =>
    intro hp
    have h1 : tierUsage q1 t * t.price ≤ tierUsage q2 t * t.price :=
      mul_le_mul_of_nonneg_right (tierUsage_mono hq t) (hp t (List.mem_cons_self t rest))
    have h2 := ih (fun t' ht' => hp t' (List.mem_cons_of_mem t ht'))
    simp only [tieredMarginalTotal, List.map_cons, List.sum_cons] at h2 ⊢
    exact add_le_add h1 h2

/-- Interpretation of a raw threshold entry; defined exactly when both
mandatory keys are present. -/
def toThreshold (t : RawThreshold) : Option (ℚ × ℚ) :=
  match t.threshold, t.price with
  | some tv, some p => some (tv, p)
  | _, _ => none

/-- Sum of the one-shot fees of all crossed thresholds. -/
def thresholdTotal (q : ℚ) (ts : List (ℚ × ℚ)) : ℚ :=
  (ts.map (fun t => if q ≥ t.1 then t.2 else 0)).sum

/-- On a threshold list whose entries are well-formed the source loop never
raises and computes the sum of crossed-threshold fees. -/
theorem thresholdLoop_eq_total (q : ℚ) :
    ∀ (raws : List RawThreshold) (ts : List (ℚ × ℚ)),
      raws.mapM toThreshold = some ts →
      thresholdLoop q raws = Except.ok (thresholdTotal q ts) := by
  intro raws
  induction raws with
  | nil =>
    intro ts h
    simp only [List.mapM_nil, Option.pure_def, Option.some.injEq] at h
    subst h
    simp [thresholdLoop, thresholdTotal]
  | cons r rs ih =>
    intro ts h
    simp only [List.mapM_cons, Option.pure_def, Option.bind_eq_bind,
      Option.bind_eq_some, Option.some.injEq] at h
    obtain ⟨t, htr, ts', hts, rfl⟩ := h
    obtain ⟨tv, p, htv, hp, rfl⟩ :
        ∃ tv p, r.threshold = some tv ∧ r.price = some p ∧ t = (tv, p) := by
      cases h1 : r.threshold with
      | none => simp [toThreshold, h1] at htr
      | some tv =>
        cases h2 : r.price with
        | none => simp [toThreshold, h1, h2] at htr
        | some p => exact ⟨tv, p, rfl, rfl, by simpa [toThreshold, h1, h2] using htr.symm⟩
    rw [thresholdLoop]
    simp only [req, htv, hp, bind, Except.bind, ih ts' hts]
    simp only [thresholdTotal, List.map_cons, List.sum_cons]
    split
    · rfl
    · rw [zero_add]

/-- With non-negative fees the crossed-threshold sum grows with the usage. -/
theorem thresholdTotal_mono {q1 q2 : ℚ} (hq : q1 ≤ q2) :
    ∀ {ts : List (ℚ × ℚ)}, (∀ t ∈ ts, 0 ≤ t.2) →
      thresholdTotal q1 ts ≤ thresholdTotal q2 ts := by
  intro ts
  induction ts with
  | nil => intro _; simp [thresholdTotal]
  | cons t rest ih =>
    intro hp
    have h2 := ih (fun t' ht' => hp t' (List.mem_cons_of_mem t ht'))
    simp only [thresholdTotal, List.map_cons, List.sum_cons] at h2 ⊢
    refine add_le_add ?_ h2
    by_cases h1 : q1 ≥ t.1
    · rw [if_pos h1, if_pos (le_trans h1 hq)]
    · rw [if_neg h1]
      split
      · exact hp t (List.mem_cons_self t rest)
      · exact le_rfl

/-- Volume schedule with the spec's own example rates: 0 at 0.10, 100 at 0.08,
1000 at 0.06 per unit. -/
def exampleVolumeDetails : RawDetails :=
  { tiers := some
      [{ start := some 0, tier_end := none, price := some (1/10) },
       { start := some 100, tier_end := none, price := some (2/25) },
       { start := some 1000, tier_end := none, price := some (3/50) }] }

/-- C6 counterexample: the claim asserts that a volume component's charge is
monotonically non-decreasing in the usage quantity, but with the volume
schedule `[0 at 0.10, 100 at 0.08, 1000 at 0.06]` the evaluator charges
79.92 at `q = 999` and only 60.00 at `q = 1000`: the charge drops when the
usage crosses into a cheaper tier, refuting the claim at this input. -/
theorem volume_pricing_not_monotone :
    (999:ℚ) ≤ 1000 ∧
    calculate_charge_for_component PricingType.volume exampleVolumeDetails 999 =
      Except.ok (1998/25, 2/25) ∧
    calculate_charge_for_component PricingType.volume exampleVolumeDetails 1000 =
      Except.ok (60, 3/50) ∧
    ¬((1998:ℚ)/25 ≤ 60) := by
  refine ⟨by norm_num, ?_, ?_, by norm_num⟩
  · norm_num [calculate_charge_for_component, exampleVolumeDetails, req,
      appliedOrFirst, findAppliedTier, List.find?, bind, Except.bind]
  · norm_num [calculate_charge_for_component, exampleVolumeDetails, req,
      appliedOrFirst, findAppliedTier, List.find?, bind, Except.bind]

/-- C6 as amended: flat and subscription components are constant in the usage
quantity; tiered (well-formed chain, non-negative prices), package (positive
package size, non-negative package price), threshold (non-negative fees),
time_based (non-negative rate) and usage_based_subscription (non-negative
usage price) components are monotonically non-decreasing in the usage
quantity; volume and graduated components are exempt, as
`volume_pricing_not_monotone` shows they can decrease. -/
theorem pricing_monotonicity_amended :
    (∀ (d : RawDetails) (q1 q2 : ℚ),
      calculate_charge_for_component PricingType.flat d q1 =
        calculate_charge_for_component PricingType.flat d q2) ∧
    (∀ (d : RawDetails) (q1 q2 : ℚ),
      calculate_charge_for_component PricingType.subscription d q1 =
        calculate_charge_for_component PricingType.subscription d q2) ∧
    (∀ (d : RawDetails) (raws : List RawTier) (tiers : List Tier) (q1 q2 : ℚ),
      d.tiers = some raws → raws.mapM toTier = some tiers →
      chainedFrom 0 tiers → (∀ t ∈ tiers, 0 ≤ t.price) →
      0 ≤ q1 → q1 ≤ q2 →
      ∀ c1 u1 c2 u2,
        calculate_charge_for_component PricingType.tiered d q1 = Except.ok (c1, u1) →
        calculate_charge_for_component PricingType.tiered d q2 = Except.ok (c2, u2) →
        c1 ≤ c2) ∧
    (∀ (d : RawDetails) (s p q1 q2 : ℚ),
      d.package_size = some s → d.package_price = some p →
      0 < s → 0 ≤ p → q1 ≤ q2 →
      ∀ c1 u1 c2 u2,
        calculate_charge_for_component PricingType.package d q1 = Except.ok (c1, u1) →
        calculate_charge_for_component PricingType.package d q2 = Except.ok (c2, u2) →
        c1 ≤ c2) ∧
    (∀ (d : RawDetails) (raws : List RawThreshold) (ts : List (ℚ × ℚ)) (q1 q2 : ℚ),
      d.thresholds = some raws → raws.mapM toThreshold = some ts →
      (∀ t ∈ ts, 0 ≤ t.2) → q1 ≤ q2 →
      ∀ c1 u1 c2 u2,
        calculate_charge_for_component PricingType.threshold d q1 = Except.ok (c1, u1) →
        calculate_charge_for_component PricingType.threshold d q2 = Except.ok (c2, u2) →
        c1 ≤ c2) ∧
    (∀ (d : RawDetails) (q1 q2 : ℚ),
      0 ≤ d.rate_per_unit.getD 0 → q1 ≤ q2 →
      ∀ c1 u1 c2 u2,
        calculate_charge_for_component PricingType.time_based d q1 = Except.ok (c1, u1) →
        calculate_charge_for_component PricingType.time_based d q2 = Except.ok (c2, u2) →
        c1 ≤ c2) ∧
    (∀ (d : RawDetails) (q1 q2 : ℚ),
      0 ≤ d.usage_price.getD 0 → q1 ≤ q2 →
      ∀ c1 u1 c2 u2,
        calculate_charge_for_component PricingType.usage_based_subscription d q1 =
          Except.ok (c1, u1) →
        calculate_charge_for_component PricingType.usage_based_subscription d q2 =
          Except.ok (c2, u2) →
        c1 ≤ c2) := by
  refine ⟨fun d q1 q2 => rfl, fun d q1 q2 => rfl, ?_, ?_, ?_, ?_, ?_⟩
  · -- tiered
    intro d raws tiers q1 q2 hd ht hc hp hq1 hq12 c1 u1 c2 u2 h1 h2
    rw [tiered_eval_eq_claimTotal d raws tiers q1 hd ht hc hq1] at h1
    rw [tiered_eval_eq_claimTotal d raws tiers q2 hd ht hc (le_trans hq1 hq12)] at h2
    simp only [Except.ok.injEq, Prod.mk.injEq] at h1 h2
    rw [← h1.1, ← h2.1,
      tieredClaimTotal_eq_marginal hc hq1,
      tieredClaimTotal_eq_marginal hc (le_trans hq1 hq12)]
    exact tieredMarginalTotal_mono hq12 hp
  · -- package
    intro d s p q1 q2 hs hpp hspos hpnn hq c1 u1 c2 u2 h1 h2
    have hne : ¬(s = 0) := ne_of_gt hspos
    simp only [calculate_charge_for_component, hs, hpp, req, bind, Except.bind,
      if_neg hne, Except.ok.injEq, Prod.mk.injEq] at h1 h2
    rw [← h1.1, ← h2.1]
    have hdiv : (q1 + s - 1) / s ≤ (q2 + s - 1) / s :=
      (div_le_div_iff_of_pos_right hspos).mpr (by linarith)
    have hfl : ((q1 + s - 1) / s).floor ≤ ((q2 + s - 1) / s).floor :=
      Int.floor_le_floor hdiv
    exact mul_le_mul_of_nonneg_right (by exact_mod_cast hfl) hpnn
  · -- threshold
    intro d raws ts q1 q2 hd hts hp hq c1 u1 c2 u2 h1 h2
    simp only [calculate_charge_for_component, hd, req, bind, Except.bind,
      thresholdLoop_eq_total q1 raws ts hts, thresholdLoop_eq_total q2 raws ts hts,
      Except.ok.injEq, Prod.mk.injEq] at h1 h2
    rw [← h1.1, ← h2.1]
    exact thresholdTotal_mono hq hp
  · -- time_based
    intro d q1 q2 hr hq c1 u1 c2 u2 h1 h2
    simp only [calculate_charge_for_component, Except.ok.injEq, Prod.mk.injEq] at h1 h2
    rw [← h1.1, ← h2.1]
    exact mul_le_mul_of_nonneg_right hq hr
  · -- usage_based_subscription
    intro d q1 q2 hr hq c1 u1 c2 u2 h1 h2
    simp only [calculate_charge_for_component, Except.ok.injEq, Prod.mk.injEq] at h1 h2
    rw [← h1.1, ← h2.1]
    have := mul_le_mul_of_nonneg_right hq hr
    linarith

/-- Witness for `pricing_monotonicity_amended`: a time-based component at rate
2 charges 6 at `q = 3` and 8 at `q = 4`, and the theorem yields `6 ≤ 8`. -/
theorem pricing_monotonicity_amended_witness :
    calculate_charge_for_component PricingType.time_based
      { rate_per_unit := some 2 } 3 = Except.ok (6, 2) ∧
    calculate_charge_for_component PricingType.time_based
      { rate_per_unit := some 2 } 4 = Except.ok (8, 2) ∧
    (6:ℚ) ≤ 8 := by
  have e3 : calculate_charge_for_component PricingType.time_based
      { rate_per_unit := some 2 } 3 = Except.ok (6, 2) := by
    norm_num [calculate_charge_for_component]
  have e4 : calculate_charge_for_component PricingType.time_based
      { rate_per_unit := some 2 } 4 = Except.ok (8, 2) := by
    norm_num [calculate_charge_for_component]
  refine ⟨e3, e4, ?_⟩
  exact pricing_monotonicity_amended.2.2.2.2.2.1
    { rate_per_unit := some 2 } 3 4 (by norm_num) (by norm_num) 6 2 8 2 e3 e4

/-- C4: error handling of malformed `pricing_details`.  The claim says the
evaluator returns a zero charge with a diagnostic description instead of
raising.  The source has no exception handling in
`calculate_charge_for_component`: a flat component without an `amount` key
(and likewise a tiered component without a `tiers` key) raises `KeyError`
from the mandatory dict access, so invoice assembly aborts. -/
theorem malformed_details_raise_key_error :
    calculate_charge_for_component PricingType.flat {} 5 =
      Except.error PyErr.keyError ∧
    calculate_charge_for_component PricingType.tiered {} 5 =
      Except.error PyErr.keyError := by
  exact ⟨rfl, rfl⟩

/-- The `InvoiceStatus` enumeration of `fubble/database/models.py`. -/
inductive InvoiceStatus where
  | draft
  | pending
  | paid
  | failed
  | void
  deriving DecidableEq, Repr

/-- Invoice row; issue/due dates and notes are not modelled (no claim reads
them), `paid_date` is an abstract instant. -/
structure Invoice where
  id : Nat
  status : InvoiceStatus
  amount : ℚ
  paid_date : Option ℚ := none
  deriving DecidableEq, Repr

/-- Invoice item row. -/
structure InvoiceItem where
  id : Nat := 0
  invoice_id : Nat := 0
  metric_name : Option String := none
  quantity : Option ℚ := none
  unit_price : ℚ
  amount : ℚ
  subscription_id : Option Nat := none
  deriving DecidableEq, Repr

/-- The membership test `status in [s.value for s in InvoiceStatus]` of
`update_invoice_status`, combined with the enum coercion the ORM applies when
the string is assigned to the column. -/
def statusOfString (s : String) : Option InvoiceStatus :=
  if s = "draft" then some InvoiceStatus.draft
  else if s = "pending" then some InvoiceStatus.pending
  else if s = "paid" then some InvoiceStatus.paid
  else if s = "failed" then some InvoiceStatus.failed
  else if s = "void" then some InvoiceStatus.void
  else none

/-- Lookup of `InvoiceManager.get_invoice` over the invoice table. -/
def get_invoice (db : List Invoice) (invoice_id : Nat) : Option Invoice :=
  db.find? (fun i => i.id = invoice_id)

/-- Embedding of `InvoiceManager.update_invoice_status`
(invoices.py lines 64-90): `None` when the invoice is missing or the status
string invalid; otherwise the status is assigned unconditionally — there is
no check on the current status — with `paid_date` stamped when the new status
is `paid`. -/
def update_invoice_status (db : List Invoice) (invoice_id : Nat)
    (status : String) (now : ℚ) : Option Invoice × List Invoice :=
  match get_invoice db invoice_id with
  | none => (none, db)
  | some invoice =>
    match statusOfString status with
    | none => (none, db)
    | some st =>
      let invoice' := { invoice with
        status := st,
        paid_date := if status = "paid" then some now else invoice.paid_date }
      (some invoice', db.map (fun j => if j.id = invoice_id then invoice' else j))

/-- Embedding of `InvoiceManager.void_invoice` (invoices.py lines 192-215):
refuses (returns `None`) when the invoice is missing or already `paid`,
otherwise sets the status to `void`. -/
def void_invoice (db : List Invoice) (invoice_id : Nat) :
    Option Invoice × List Invoice :=
  match get_invoice db invoice_id with
  | none => (none, db)
  | some invoice =>
    if invoice.status = InvoiceStatus.paid then (none, db)
    else
      let invoice' := { invoice with status := InvoiceStatus.void }
      (some invoice', db.map (fun j => if j.id = invoice_id then invoice' else j))

/-- Embedding of `InvoiceManager.add_invoice_item` (invoices.py lines 92-145):
only draft invoices accept items; the unit price defaults to `amount/quantity`
when a positive quantity is given, else to `amount`; the invoice total is
increased by the item amount. -/
def add_invoice_item (db : List Invoice) (invoice_id : Nat) (amount : ℚ)
    (quantity : Option ℚ) (metric_name : Option String)
    (unit_price : Option ℚ) : Option InvoiceItem × List Invoice :=
  match get_invoice db invoice_id with
  | none => (none, db)
  | some invoice =>
    if invoice.status ≠ InvoiceStatus.draft then (none, db)
    else
      let up : ℚ :=
        match unit_price, quantity with
        | some u, _ => u
        | none, some q => if q > 0 then amount / q else amount
        | none, none => amount
      let item : InvoiceItem :=
        { invoice_id := invoice_id, metric_name := metric_name,
          quantity := quantity, unit_price := up, amount := amount }
      let invoice' := { invoice with amount := invoice.amount + amount }
      (some item, db.map (fun j => if j.id = invoice_id then invoice' else j))

/-- Embedding of `InvoiceManager.remove_invoice_item`
(invoices.py lines 147-171): fails unless the item exists and its invoice is
a draft; the invoice total is decreased by the item amount. -/
def remove_invoice_item (db : List Invoice) (items : List InvoiceItem)
    (item_id : Nat) : Bool × List Invoice × List InvoiceItem :=
  match items.find? (fun it => it.id = item_id) with
  | none => (false, db, items)
  | some item =>
    match get_invoice db item.invoice_id with
    | none => (false, db, items)
    | some invoice =>
      if invoice.status ≠ InvoiceStatus.draft then (false, db, items)
      else
        let invoice' := { invoice with amount := invoice.amount - item.amount }
        (true, db.map (fun j => if j.id = item.invoice_id then invoice' else j),
          items.filter (fun it => ¬(it.id = item_id)))

/-- A concrete paid invoice used in the invoice-lifecycle theorems. -/
def paidInvoiceEx : Invoice :=
  { id := 1, status := InvoiceStatus.paid, amount := 100, paid_date := some 0 }

/-- C7 counterexample: the claim says a paid invoice is never subsequently
voided and that no status-update operation moves it to `void`, but
`update_invoice_status` checks only that the target status string is a valid
enum value — applied to a paid invoice with status string `"void"` it
succeeds and the invoice becomes void. -/
theorem paid_invoice_voided_by_update_status :
    (get_invoice [paidInvoiceEx] 1).map Invoice.status = some InvoiceStatus.paid ∧
    (update_invoice_status [paidInvoiceEx] 1 "void" 7).1 =
      some { id := 1, status := InvoiceStatus.void, amount := 100, paid_date := some 0 } := by
  exact ⟨rfl, rfl⟩

/-- C7 as amended: `void_invoice` refuses a paid invoice, and the draft-only
item operations (`add_invoice_item`, `remove_invoice_item`) refuse any
non-draft invoice — but `update_invoice_status` performs no current-status
check, so it moves even a paid invoice to any valid status, including
`void`. -/
theorem paid_invoice_guards_amended :
    (∀ (db : List Invoice) (i : Nat) (inv : Invoice),
      get_invoice db i = some inv → inv.status = InvoiceStatus.paid →
      void_invoice db i = (none, db)) ∧
    (∀ (db : List Invoice) (i : Nat) (inv : Invoice) (a : ℚ) (q : Option ℚ)
      (m : Option String) (u : Option ℚ),
      get_invoice db i = some inv → inv.status ≠ InvoiceStatus.draft →
      add_invoice_item db i a q m u = (none, db)) ∧
    (∀ (db : List Invoice) (items : List InvoiceItem) (item_id : Nat)
      (it : InvoiceItem) (inv : Invoice),
      items.find? (fun x => x.id = item_id) = some it →
      get_invoice db it.invoice_id = some inv →
      inv.status ≠ InvoiceStatus.draft →
      remove_invoice_item db items item_id = (false, db, items)) ∧
    (∀ (db : List Invoice) (i : Nat) (inv : Invoice) (now : ℚ),
      get_invoice db i = some inv → inv.status = InvoiceStatus.paid →
      (update_invoice_status db i "void" now).1 =
        some { inv with status := InvoiceStatus.void }) := by
  refine ⟨?_, ?_, ?_, ?_⟩
  · intro db i inv hget hpaid
    simp [void_invoice, hget, hpaid]
  · intro db i inv a q m u hget hnd
    simp [add_invoice_item, hget, hnd]
  · intro db items item_id it inv hfind hget hnd
    simp [remove_invoice_item, hfind, hget, hnd]
  · intro db i inv now hget hpaid
    simp [update_invoice_status, hget, statusOfString]

/-- Witness for `paid_invoice_guards_amended` on a one-invoice table holding a
paid invoice. -/
theorem paid_invoice_guards_amended_witness :
    void_invoice [paidInvoiceEx] 1 = (none, [paidInvoiceEx]) ∧
    add_invoice_item [paidInvoiceEx] 1 25 none none none = (none, [paidInvoiceEx]) := by
  constructor
  · exact paid_invoice_guards_amended.1 [paidInvoiceEx] 1 paidInvoiceEx rfl rfl
  · exact paid_invoice_guards_amended.2.1 [paidInvoiceEx] 1 paidInvoiceEx
      25 none none none rfl (by decide)

/-- Calendar date (the time-of-day part of `datetime` plays no role in the
period computations modelled here: `create_billing_periods` rebuilds each
period end from year/month/day alone). -/
structure Date where
  year : Nat
  month : Nat
  day : Nat
  deriving DecidableEq, Repr

/-- Gregorian leap-year test. -/
def isLeapYear (y : Nat) : Bool :=
  y % 4 = 0 && (y % 100 != 0 || y % 400 = 0)

/-- Days in a month of the Gregorian calendar. -/
def daysInMonth (y m : Nat) : Nat :=
  if m = 2 then (if isLeapYear y then 29 else 28)
  else if m = 4 || m = 6 || m = 9 || m = 11 then 30
  else 31

/-- The `datetime(year, month, day)` constructor: raises `ValueError` unless
the day exists in the target month. -/
def mkDatetime (y m d : Nat) : Except PyErr Date :=
  if 1 ≤ m ∧ m ≤ 12 ∧ 1 ≤ d ∧ d ≤ daysInMonth y m then Except.ok ⟨y, m, d⟩
  else Except.error PyErr.valueError

/-- Injective order-preserving key for valid dates (day < 32, month ≤ 12). -/
def Date.key (dt : Date) : Nat :=
  (dt.year * 12 + dt.month) * 32 + dt.day

/-- Strict order on dates. -/
def dateLt (a b : Date) : Prop := a.key < b.key

instance : DecidablePred fun p : Date × Date => dateLt p.1 p.2 :=
  fun _ => Nat.decLt _ _

instance (a b : Date) : Decidable (dateLt a b) := Nat.decLt _ _

/-- Successor day, used only to resolve the `timedelta(days=3650)` default
end of an open-ended subscription. -/
def Date.nextDay (dt : Date) : Date :=
  if dt.day < daysInMonth dt.year dt.month then ⟨dt.year, dt.month, dt.day + 1⟩
  else if dt.month < 12 then ⟨dt.year, dt.month + 1, 1⟩
  else ⟨dt.year + 1, 1, 1⟩

/-- Date plus `n` days. -/
def addDays (dt : Date) : Nat → Date
  | 0 => dt
  | n + 1 => addDays dt.nextDay n

/-- One stepping iteration of `create_billing_periods`
(billing.py lines 819-842): the computed next period end for each billing
frequency.  `year = y + m // 12`, `month = (m % 12) + 1` for monthly (and the
unknown-frequency default), three months ahead for quarterly, one year ahead
for yearly — in every case reusing `current_start.day` unchanged, so the
`datetime` constructor raises `ValueError` whenever that day does not exist
in the target month. -/
def billingPeriodStep (billing_frequency : String) (current_start : Date) :
    Except PyErr Date :=
  if billing_frequency = "monthly" then
    mkDatetime (current_start.year + current_start.month / 12)
      (current_start.month % 12 + 1) current_start.day
  else if billing_frequency = "quarterly" then
    mkDatetime (current_start.year + (current_start.month + 2) / 12)
      ((current_start.month + 2) % 12 + 1) current_start.day
  else if billing_frequency = "yearly" then
    mkDatetime (current_start.year + 1) current_start.month current_start.day
  else
    mkDatetime (current_start.year + current_start.month / 12)
      (current_start.month % 12 + 1) current_start.day

/-- The `while current_start < end_date` loop of `create_billing_periods`
(billing.py lines 819-859), with explicit fuel standing in for the loop's
termination (each computed period end is strictly later than its start, and
the caller passes fuel exceeding the possible number of periods). -/
def createPeriodsLoop (billing_frequency : String) (end_date : Date) :
    Nat → Date → Except PyErr (List (Date × Date))
  | 0, _ => Except.ok []
  | fuel + 1, current_start =>
    if dateLt current_start end_date then do
      let stepped ← billingPeriodStep billing_frequency current_start
      let current_end := if dateLt end_date stepped then end_date else stepped
      let rest ← createPeriodsLoop billing_frequency end_date fuel current_end
      Except.ok ((current_start, current_end) :: rest)
    else
      Except.ok []

/-- Embedding of `BillingEngine.create_billing_periods`
(billing.py lines 799-862): the subscription end defaults to ten years
(3650 days) past the start; periods are generated until the running start
reaches the end, each end clipped to the subscription end. -/
def create_billing_periods (billing_frequency : String) (start_date : Date)
    (subscription_end : Option Date) : Except PyErr (List (Date × Date)) :=
  let end_date := subscription_end.getD (addDays start_date 3650)
  createPeriodsLoop billing_frequency end_date
    ((end_date.year + 2 - start_date.year) * 13) start_date

/-- C8: the claim says month stepping clamps the day-of-month to the last day
of a shorter target month so that period generation succeeds for start days
29-31.  The source performs no clamping: a monthly subscription starting
2024-01-31 computes `datetime(2024, 2, 31)` for its first period end, which
raises `ValueError` (February 2024 has 29 days), so `create_billing_periods`
fails instead of producing clamped, contiguous periods. -/
theorem billing_periods_day31_raises :
    create_billing_periods "monthly" ⟨2024, 1, 31⟩ (some ⟨2024, 3, 15⟩) =
      Except.error PyErr.valueError ∧
    billingPeriodStep "monthly" ⟨2024, 1, 31⟩ = Except.error PyErr.valueError := by
  exact ⟨rfl, rfl⟩

/-- A composite metric's `arithmetic` formula, as read by
`MetricManager.calculate_composite_metric` (metrics.py lines 160-189).  The
only key the source reads from each entry of `variables` is
`var_config.get("metric")`, so a variable is modelled as its name paired with
that optional source-metric name (the field is named `formula_variables`
because `variables` is a reserved word in Lean). -/
structure MetricFormula where
  formula_type : Option String := none
  expression : Option String := none
  formula_variables : List (String × Option String) := []
  deriving DecidableEq, Repr

/-- Abstract rendering of Python's `str(float)`; the exact digits are
irrelevant to the safety claim. -/
def pyFloatStr (q : ℚ) : String := toString q

/-- The substitution loop of the arithmetic branch: each `\x7bvar\x7d`
placeholder is replaced by the source metric's value; a variable without a
`metric` key or whose metric has no input value raises `ValueError`. -/
def substituteVariables (input_values : List (String × ℚ)) :
    String → List (String × Option String) → Except PyErr String
  | expr, [] => Except.ok expr
  | expr, (var_name, source_metric) :: rest =>
    match source_metric with
    | some m =>
      match input_values.lookup m with
      | some v =>
        substituteVariables input_values
          (expr.replace ("\x7b" ++ var_name ++ "\x7d") (pyFloatStr v)) rest
      | none => Except.error PyErr.valueError
    | none => Except.error PyErr.valueError

/-- The string that the arithmetic branch of `calculate_composite_metric`
hands to Python's `eval` after substitution.  The source performs NO
validation between substitution and `eval` (its own comment calls this
"super unsafe"); every successfully substituted expression is executed.  The
`function` branch and unknown formula types never reach `eval`. -/
def expressionPassedToEval (formula : MetricFormula)
    (input_values : List (String × ℚ)) : Except PyErr String :=
  if formula.formula_type = some "arithmetic" then
    match formula.expression with
    | none => Except.error PyErr.valueError
    | some e =>
      if e = "" then Except.error PyErr.valueError
      else substituteVariables input_values e formula.formula_variables
  else Except.error PyErr.valueError

/-- The token restriction demanded by the specification for the arithmetic
evaluator, stated on characters: digits, decimal points, the operators
`+ - * / ( )` and whitespace.  This is the spec-side checker the source is
measured against; the source contains no such check. -/
def specSafeChar (c : Char) : Bool :=
  c.isDigit || c = '.' || c = '+' || c = '-' || c = '*' || c = '/' ||
    c = '(' || c = ')' || c = ' ' || c = '\t' || c = '\n'

/-- An expression all of whose characters pass the spec's token restriction. -/
def specSafeExpr (s : String) : Bool := s.toList.all specSafeChar

/-- A formula whose expression is a Python identifier giving access to
module loading — not an arithmetic expression. -/
def exampleUnsafeFormula : MetricFormula :=
  { formula_type := some "arithmetic", expression := some "__import__" }

/-- C10: the claim says the arithmetic formula evaluator accepts only
digit/operator/whitespace tokens and fails on anything else.  The source
passes the substituted expression string straight to Python's `eval` with no
token check (the in-code comment admits it is unsafe): the expression
`__import__`, which the spec's token restriction rejects, reaches `eval`
and is executed rather than failing. -/
theorem composite_formula_eval_is_unrestricted :
    expressionPassedToEval exampleUnsafeFormula [] = Except.ok "__import__" ∧
    specSafeExpr "__import__" = false := by
  exact ⟨rfl, rfl⟩

/-- The `CreditStatus` enumeration of `fubble/database/models.py`. -/
inductive CreditStatus where
  | active
  | expired
  | consumed
  | cancelled
  deriving DecidableEq, Repr

/-- Credit balance row; `expires_at` is an abstract UTC instant. -/
structure CreditBalance where
  id : Nat
  customer_id : Nat
  amount : ℚ
  remaining_amount : ℚ
  status : CreditStatus
  expires_at : Option ℚ := none
  deriving DecidableEq, Repr

/-- Credit transaction row.  `credit_balance_id` is an `Option` because the
column value is whatever the Python object held when the row was built —
`None` when the balance had not been flushed yet. -/
structure CreditTransaction where
  credit_balance_id : Option Nat
  amount : ℚ
  invoice_id : Option Nat := none
  deriving DecidableEq, Repr

/-- Ordering used by `ORDER BY expires_at ASC` on the default SQLite backend:
NULL sorts before every value. -/
def expiryLe (a b : CreditBalance) : Bool :=
  match a.expires_at, b.expires_at with
  | none, _ => true
  | some _, none => false
  | some x, some y => decide (x ≤ y)

/-- Insertion of one balance into an expiry-sorted list (stable). -/
def insertByExpiry (b : CreditBalance) : List CreditBalance → List CreditBalance
  | [] => [b]
  | c :: rest => if expiryLe b c then b :: c :: rest else c :: insertByExpiry b rest

/-- Stable sort by `expires_at` ascending, NULLs first (SQLite). -/
def sortByExpiry (l : List CreditBalance) : List CreditBalance :=
  l.foldr insertByExpiry []

/-- Membership is preserved by the expiry sort. -/
theorem mem_sortByExpiry {b : CreditBalance} :
    ∀ {l : List CreditBalance}, b ∈ sortByExpiry l ↔ b ∈ l := by
  intro l
  have key : ∀ (x : CreditBalance) (m : List CreditBalance),
      b ∈ insertByExpiry x m ↔ b = x ∨ b ∈ m := by
    intro x m
    induction m with
    | nil => simp [insertByExpiry]
    | cons c rest ih =>
      simp only [insertByExpiry]
      split
      · simp [List.mem_cons]
      · simp only [List.mem_cons, ih]
        tauto
  induction l with
  | nil => simp [sortByExpiry]
  | cons c rest ih =>
    simp only [sortByExpiry, List.foldr_cons] at ih ⊢
    rw [key c (rest.foldr insertByExpiry [])]
    simp [List.mem_cons, ih]

/-- The query of `_apply_credits_to_invoice` (billing.py lines 679-688):
active balances of the customer with remaining amount above zero, ordered by
expiry — note the absence of any `expires_at` filter. -/
def activeCreditsQuery (balances : List CreditBalance) (customer_id : Nat) :
    List CreditBalance :=
  sortByExpiry (balances.filter (fun b =>
    decide (b.customer_id = customer_id ∧ b.status = CreditStatus.active ∧
      0 < b.remaining_amount)))

/-- The draw loop of `_apply_credits_to_invoice` (billing.py lines 692-730):
returns the list `(balance id, amount drawn)` in draw order together with the
remaining invoice amount. -/
def applyCreditsLoop : ℚ → List CreditBalance → List (Nat × ℚ) × ℚ
  | remaining_invoice_amount, [] => ([], remaining_invoice_amount)
  | remaining_invoice_amount, credit :: rest =>
    if remaining_invoice_amount ≤ 0 then ([], remaining_invoice_amount)
    else
      let amount_to_apply := min credit.remaining_amount remaining_invoice_amount
      if amount_to_apply ≤ 0 then applyCreditsLoop remaining_invoice_amount rest
      else
        let step := applyCreditsLoop (remaining_invoice_amount - amount_to_apply) rest
        ((credit.id, amount_to_apply) :: step.1, step.2)

/-- First draw recorded against a given balance id. -/
def findDraw : List (Nat × ℚ) → Nat → Option ℚ
  | [], _ => none
  | d :: rest, i => if d.1 = i then some d.2 else findDraw rest i

/-- The in-place mutation of a drawn balance: decrement the remaining amount
and mark the balance consumed when it reaches zero. -/
def applyDraw (draws : List (Nat × ℚ)) (b : CreditBalance) : CreditBalance :=
  match findDraw draws b.id with
  | some x =>
    { b with
      remaining_amount := b.remaining_amount - x,
      status := if b.remaining_amount - x ≤ 0 then CreditStatus.consumed else b.status }
  | none => b

/-- Embedding of `BillingEngine._apply_credits_to_invoice`
(billing.py lines 666-732): returns the updated balance table, the appended
credit transactions (negative, linked to the invoice), the negative invoice
line items, and `max(0, remaining)`. -/
def _apply_credits_to_invoice (balances : List CreditBalance)
    (customer_id invoice_id : Nat) (total_amount : ℚ) :
    List CreditBalance × List CreditTransaction × List InvoiceItem × ℚ :=
  let active_credits := activeCreditsQuery balances customer_id
  let step := applyCreditsLoop total_amount active_credits
  let draws := step.1
  let txs := draws.map (fun d =>
    ({ credit_balance_id := some d.1, amount := -d.2,
       invoice_id := some invoice_id } : CreditTransaction))
  let items := draws.map (fun d =>
    ({ invoice_id := invoice_id, metric_name := none, quantity := some 1,
       unit_price := -d.2, amount := -d.2 } : InvoiceItem))
  (balances.map (applyDraw draws), txs, items, max 0 step.2)

/-- Every recorded draw comes from a balance in the processed list and is
strictly positive. -/
theorem applyCreditsLoop_draws_mem :
    ∀ (l : List CreditBalance) (rem : ℚ) (d : Nat × ℚ),
      d ∈ (applyCreditsLoop rem l).1 → ∃ b ∈ l, b.id = d.1 ∧ 0 < d.2 := by
  intro l
  induction l with
  | nil => intro rem d h; simp [applyCreditsLoop] at h
  | cons c rest ih =>
    intro rem d h
    simp only [applyCreditsLoop] at h
    split at h
    · simp at h
    · split at h
      · obtain ⟨b, hb, h1, h2⟩ := ih rem d h
        exact ⟨b, List.mem_cons_of_mem c hb, h1, h2⟩
      · rcases List.mem_cons.mp h with rfl | h
        · exact ⟨c, List.mem_cons_self c rest, rfl, lt_of_not_le (by assumption)⟩
        · obtain ⟨b, hb, h1, h2⟩ := ih _ d h
          exact ⟨b, List.mem_cons_of_mem c hb, h1, h2⟩

/-- Balance A of the claim's example: 50 remaining, expires at instant 601. -/
def balanceA : CreditBalance :=
  { id := 1, customer_id := 7, amount := 50, remaining_amount := 50,
    status := CreditStatus.active, expires_at := some 601 }

/-- Balance B of the claim's example: 30 remaining, expires at instant 501. -/
def balanceB : CreditBalance :=
  { id := 2, customer_id := 7, amount := 30, remaining_amount := 30,
    status := CreditStatus.active, expires_at := some 501 }

/-- An active balance whose expiry instant (50) is already in the past at
any application time after 50. -/
def expiredBalance : CreditBalance :=
  { id := 1, customer_id := 7, amount := 30, remaining_amount := 30,
    status := CreditStatus.active, expires_at := some 50 }

/-- C3 counterexample: the claim says only balances not past their
`expires_at` are drawn.  `_apply_credits_to_invoice` never compares
`expires_at` with the current time: a balance that expired at instant 50 —
while the application happens later, e.g. at instant 100 > 50 — is still
drawn in full, the invoice drops to 0 instead of staying at 30, and the
stale balance is marked consumed. -/
theorem expired_credit_still_drawn :
    (50:ℚ) < 100 ∧
    (_apply_credits_to_invoice [expiredBalance] 7 9 30).2.2.2 = 0 ∧
    ¬((_apply_credits_to_invoice [expiredBalance] 7 9 30).2.2.2 = 30) ∧
    (_apply_credits_to_invoice [expiredBalance] 7 9 30).1 =
      [{ id := 1, customer_id := 7, amount := 30, remaining_amount := 0,
         status := CreditStatus.consumed, expires_at := some 50 }] := by
  refine ⟨by norm_num, ?_, ?_, ?_⟩ <;>
    norm_num [_apply_credits_to_invoice, activeCreditsQuery, sortByExpiry,
      insertByExpiry, expiryLe, applyCreditsLoop, applyDraw, findDraw,
      expiredBalance]

/-- C3 as amended: the balances drawn by `_apply_credits_to_invoice` are
exactly characterised by the query's filter — active, remaining amount above
zero, owned by the customer — with NO expiry check (an expired-but-active
balance is drawn, see `expired_credit_still_drawn`), processed in ascending
`expires_at` order; on the claim's example (A: 50 remaining, expires 601;
B: 30 remaining, expires 501; invoice 60) B is drawn first and consumed, A is
left with 20 active, the draw transactions are −30 on B then −30 on A, and
the invoice amount becomes 0. -/
theorem credit_application_order_amended :
    (∀ (balances : List CreditBalance) (customer_id invoice_id : Nat)
      (total : ℚ) (t : CreditTransaction),
      t ∈ (_apply_credits_to_invoice balances customer_id invoice_id total).2.1 →
      ∃ b ∈ balances, t.credit_balance_id = some b.id ∧
        b.customer_id = customer_id ∧ b.status = CreditStatus.active ∧
        0 < b.remaining_amount ∧ t.amount < 0) ∧
    (_apply_credits_to_invoice [balanceA, balanceB] 7 9 60 =
      ([{ id := 1, customer_id := 7, amount := 50, remaining_amount := 20,
          status := CreditStatus.active, expires_at := some 601 },
        { id := 2, customer_id := 7, amount := 30, remaining_amount := 0,
          status := CreditStatus.consumed, expires_at := some 501 }],
       [{ credit_balance_id := some 2, amount := -30, invoice_id := some 9 },
        { credit_balance_id := some 1, amount := -30, invoice_id := some 9 }],
       [{ invoice_id := 9, quantity := some 1, unit_price := -30, amount := -30 },
        { invoice_id := 9, quantity := some 1, unit_price := -30, amount := -30 }],
       0)) := by
  constructor
  · intro balances customer_id invoice_id total t ht
    simp only [_apply_credits_to_invoice, List.mem_map] at ht
    obtain ⟨d, hd, rfl⟩ := ht
    obtain ⟨b, hb, hid, hpos⟩ := applyCreditsLoop_draws_mem _ _ _ hd
    rw [activeCreditsQuery, mem_sortByExpiry, List.mem_filter] at hb
    obtain ⟨hbmem, hfilter⟩ := hb
    rw [decide_eq_true_eq] at hfilter
    exact ⟨b, hbmem, by rw [hid], hfilter.1, hfilter.2.1, hfilter.2.2,
      by simpa using hpos⟩
  · norm_num [_apply_credits_to_invoice, activeCreditsQuery, sortByExpiry,
      insertByExpiry, expiryLe, applyCreditsLoop, applyDraw, findDraw,
      balanceA, balanceB]

/-- Witness for `credit_application_order_amended`: the first transaction of
the A/B example draws from balance B, which is active with positive
remaining amount. -/
theorem credit_application_order_amended_witness :
    ∃ b ∈ [balanceA, balanceB],
      (some 2 : Option Nat) = some b.id ∧ b.customer_id = 7 ∧
      b.status = CreditStatus.active ∧ 0 < b.remaining_amount ∧
      (-30 : ℚ) < 0 := by
  have hmem : ({ credit_balance_id := some 2, amount := -30,
                 invoice_id := some 9 } : CreditTransaction) ∈
      (_apply_credits_to_invoice [balanceA, balanceB] 7 9 60).2.1 := by
    rw [credit_application_order_amended.2]
    exact List.mem_cons_self _ _
  have h := credit_application_order_amended.1 [balanceA, balanceB] 7 9 60 _ hmem
  exact h

/-- Inserting a balance keeps the list a permutation of cons. -/
theorem insertByExpiry_perm (b : CreditBalance) :
    ∀ (l : List CreditBalance), (insertByExpiry b l).Perm (b :: l) := by
  intro l
  induction l with
  | nil => simp [insertByExpiry]
  | cons c rest ih =>
    simp only [insertByExpiry]
    split
    · exact List.Perm.refl _
    · exact (List.Perm.cons c ih).trans (List.Perm.swap b c rest)

/-- The expiry sort permutes its input. -/
theorem sortByExpiry_perm : ∀ (l : List CreditBalance), (sortByExpiry l).Perm l := by
  intro l
  induction l with
  | nil => exact List.Perm.refl _
  | cons c rest ih =>
    simp only [sortByExpiry, List.foldr_cons] at ih ⊢
    exact (insertByExpiry_perm c _).trans (List.Perm.cons c ih)

/-- Sum of the transaction amounts linked to one balance id. -/
def txSum (transactions : List CreditTransaction) (balance_id : Nat) : ℚ :=
  ((transactions.filter
      (fun t => decide (t.credit_balance_id = some balance_id))).map
    (fun t => t.amount)).sum

/-- The draw keys of the invoice loop form a sublist of the processed ids. -/
theorem applyCreditsLoop_keys_sublist :
    ∀ (l : List CreditBalance) (rem : ℚ),
      ((applyCreditsLoop rem l).1.map Prod.fst).Sublist (l.map CreditBalance.id) := by
  intro l
  induction l with
  | nil => intro rem; simp [applyCreditsLoop]
  | cons c rest ih =>
    intro rem
    simp only [applyCreditsLoop]
    split
    · simp
    · split
      · exact (ih rem).trans (List.sublist_cons_self _ _)
      · simpa using List.Sublist.cons₂ c.id (ih _)

/-- Linked-sum of a cons: the head contributes its amount iff it is linked to
the balance. -/
theorem txSum_cons (t : CreditTransaction) (ts : List CreditTransaction) (i : Nat) :
    txSum (t :: ts) i =
      (if t.credit_balance_id = some i then t.amount else 0) + txSum ts i := by
  simp only [txSum, List.filter_cons]
  split
  · rename_i h
    rw [decide_eq_true_eq] at h
    rw [if_pos h, List.map_cons, List.sum_cons]
  · rename_i h
    rw [decide_eq_true_eq] at h
    rw [if_neg h, zero_add]

/-- Linked-sum distributes over concatenation. -/
theorem txSum_append (ts1 ts2 : List CreditTransaction) (i : Nat) :
    txSum (ts1 ++ ts2) i = txSum ts1 i + txSum ts2 i := by
  simp [txSum, List.filter_append]

/-- A batch of draw transactions whose keys avoid `i` contributes nothing to
balance `i`, and records no draw against it. -/
theorem txSum_draw_batch_none (inv : Option Nat) :
    ∀ (draws : List (Nat × ℚ)) (i : Nat), i ∉ draws.map Prod.fst →
      txSum (draws.map (fun d =>
        ({ credit_balance_id := some d.1, amount := -d.2,
           invoice_id := inv } : CreditTransaction))) i = 0 ∧
      findDraw draws i = none := by
  intro draws
  induction draws with
  | nil => intro i _; exact ⟨rfl, rfl⟩
  | cons d rest ih =>
    intro i hi
    simp only [List.map_cons, List.mem_cons, not_or] at hi
    obtain ⟨hne, hrest⟩ := hi
    obtain ⟨h1, h2⟩ := ih i hrest
    refine ⟨?_, ?_⟩
    · rw [List.map_cons, txSum_cons, h1]
      rw [if_neg (by simp; exact fun h => hne h.symm)]
      ring
    · simp only [findDraw]
      rw [if_neg (fun h => hne h.symm), h2]

/-- A transaction batch built from draws with pairwise distinct keys sums, on
each balance id, to the negated draw against that id (0 when absent). -/
theorem txSum_draw_batch (inv : Option Nat) :
    ∀ (draws : List (Nat × ℚ)), (draws.map Prod.fst).Nodup →
      ∀ (i : Nat),
        txSum (draws.map (fun d =>
          ({ credit_balance_id := some d.1, amount := -d.2,
             invoice_id := inv } : CreditTransaction))) i =
          match findDraw draws i with
          | some x => -x
          | none => 0 := by
  intro draws
  induction draws with
  | nil => intro _ i; simp [txSum, findDraw]
  | cons d rest ih =>
    intro hnod i
    simp only [List.map_cons, List.nodup_cons] at hnod
    obtain ⟨hd, hrest⟩ := hnod
    rw [List.map_cons, txSum_cons]
    by_cases hdi : d.1 = i
    · subst hdi
      obtain ⟨h1, -⟩ := txSum_draw_batch_none inv rest d.1 hd
      have hfind : findDraw (d :: rest) d.1 = some d.2 := by
        simp [findDraw]
      rw [hfind, h1, if_pos rfl]
      ring
    · have hfind : findDraw (d :: rest) i = findDraw rest i := by
        simp only [findDraw]
        rw [if_neg hdi]
      rw [hfind, if_neg (by simpa using hdi), zero_add]
      exact ih hrest i

/-- Applying draws never changes a balance's id or original amount. -/
theorem applyDraw_id (draws : List (Nat × ℚ)) (b : CreditBalance) :
    (applyDraw draws b).id = b.id ∧ (applyDraw draws b).amount = b.amount := by
  unfold applyDraw
  cases findDraw draws b.id with
  | some x => exact ⟨rfl, rfl⟩
  | none => exact ⟨rfl, rfl⟩

/-- Updating the balances for a batch of distinct-key draws and appending the
matching negative transactions preserves the per-balance linked-sum relation
`txSum = remaining - original`. -/
theorem applyDraws_preserves_invariant
    (balances : List CreditBalance) (txs : List CreditTransaction)
    (draws : List (Nat × ℚ)) (inv : Option Nat)
    (hnod : (draws.map Prod.fst).Nodup)
    (hinv : ∀ b ∈ balances, txSum txs b.id = b.remaining_amount - b.amount) :
    ∀ b' ∈ balances.map (applyDraw draws),
      txSum (txs ++ draws.map (fun d =>
        ({ credit_balance_id := some d.1, amount := -d.2,
           invoice_id := inv } : CreditTransaction))) b'.id =
        b'.remaining_amount - b'.amount := by
  intro b' hb'
  simp only [List.mem_map] at hb'
  obtain ⟨b, hb, rfl⟩ := hb'
  obtain ⟨hid, hamt⟩ := applyDraw_id draws b
  rw [txSum_append, hid, hamt, hinv b hb, txSum_draw_batch inv draws hnod b.id]
  unfold applyDraw
  cases hfd : findDraw draws b.id with
  | some x => simp only [hfd]; ring
  | none => simp only [hfd]; ring

/-- The in-memory credit store: the balance table and the transaction log. -/
structure CreditState where
  balances : List CreditBalance
  transactions : List CreditTransaction
  deriving DecidableEq, Repr

/-- Embedding of `CreditManager.add_credits` (credits.py lines 23-92).  After
validating the customer and the amount, the source constructs the
`CreditTransaction` row as
`CreditTransaction(credit_balance_id=credit_balance.id, ...)` where
`credit_balance` was added to the session but never flushed, so its primary
key attribute is still `None`; on `db.commit()` the insert of that row
violates the NOT NULL constraint on
`credit_transactions.credit_balance_id`, the commit raises `IntegrityError`,
and neither the balance nor the transaction persists. -/
def add_credits (customers : List Nat) (s : CreditState) (customer_id : Nat)
    (amount : ℚ) (expires_at : Option ℚ) :
    Except PyErr (Option CreditBalance × CreditState) :=
  if ¬ customer_id ∈ customers then Except.ok (none, s)
  else if amount ≤ 0 then Except.ok (none, s)
  else
    let pre_flush_balance_id : Option Nat := none
    let transaction : CreditTransaction :=
      { credit_balance_id := pre_flush_balance_id, amount := amount }
    match transaction.credit_balance_id with
    | some _ => Except.ok (none, s)
    | none => Except.error PyErr.integrityError

/-- The `expires_at IS NULL OR expires_at > now` filter used by the credit
manager's queries (but not by the billing engine's). -/
def notExpired (now : ℚ) (b : CreditBalance) : Bool :=
  match b.expires_at with
  | none => true
  | some e => decide (now < e)

/-- Embedding of `CreditManager.get_customer_credit_balance`
(credits.py lines 94-122): total remaining over active, non-expired
balances. -/
def get_customer_credit_balance (balances : List CreditBalance)
    (customer_id : Nat) (now : ℚ) : ℚ :=
  ((balances.filter (fun b =>
      decide (b.customer_id = customer_id ∧ b.status = CreditStatus.active ∧
        0 < b.remaining_amount) && notExpired now b)).map
    (fun b => b.remaining_amount)).sum

/-- The draw loop of `apply_credits_manually` (credits.py lines 194-217);
unlike the billing loop it has no `continue` guard on a non-positive
application amount. -/
def manualLoop : ℚ → List CreditBalance → List (Nat × ℚ) × ℚ
  | remaining_amount, [] => ([], remaining_amount)
  | remaining_amount, credit :: rest =>
    if remaining_amount ≤ 0 then ([], remaining_amount)
    else
      let amount_to_apply := min credit.remaining_amount remaining_amount
      let step := manualLoop (remaining_amount - amount_to_apply) rest
      ((credit.id, amount_to_apply) :: step.1, step.2)

/-- Embedding of `CreditManager.apply_credits_manually`
(credits.py lines 152-220): fails when the available (active, non-expired)
total is below the requested amount; otherwise draws in expiry order from
active non-expired balances, writing negative transactions but no invoice
items. -/
def apply_credits_manually (s : CreditState) (customer_id : Nat) (amount : ℚ)
    (invoice_id : Option Nat) (now : ℚ) : Bool × CreditState :=
  let available := get_customer_credit_balance s.balances customer_id now
  if available < amount then (false, s)
  else
    let active_credits := sortByExpiry (s.balances.filter (fun b =>
      decide (b.customer_id = customer_id ∧ b.status = CreditStatus.active ∧
        0 < b.remaining_amount) && notExpired now b))
    let draws := (manualLoop amount active_credits).1
    (true,
      { balances := s.balances.map (applyDraw draws),
        transactions := s.transactions ++ draws.map (fun d =>
          ({ credit_balance_id := some d.1, amount := -d.2,
             invoice_id := invoice_id } : CreditTransaction)) })

/-- `_apply_credits_to_invoice` as a transition on the credit store. -/
def applyInvoiceState (s : CreditState) (customer_id invoice_id : Nat)
    (total : ℚ) : CreditState × ℚ :=
  let r := _apply_credits_to_invoice s.balances customer_id invoice_id total
  ({ balances := r.1, transactions := s.transactions ++ r.2.1 }, r.2.2.2)

/-- The credit operations the claim quantifies over: grants, invoice
applications and manual applications. -/
inductive CreditOp where
  | grant (customer_id : Nat) (amount : ℚ) (expires_at : Option ℚ)
  | applyInvoice (customer_id invoice_id : Nat) (total : ℚ)
  | applyManual (customer_id : Nat) (amount : ℚ) (invoice_id : Option Nat) (now : ℚ)
  deriving DecidableEq, Repr

/-- One credit operation against the store.  A grant that raises
`IntegrityError` leaves the store unchanged (the commit rolled back). -/
def creditStep (customers : List Nat) (s : CreditState) : CreditOp → CreditState
  | CreditOp.grant c a e =>
    match add_credits customers s c a e with
    | Except.ok r => r.2
    | Except.error _ => s
  | CreditOp.applyInvoice c i t => (applyInvoiceState s c i t).1
  | CreditOp.applyManual c a i now => (apply_credits_manually s c a i now).2

/-- The draw keys of the manual loop form a sublist of the processed ids. -/
theorem manualLoop_keys_sublist :
    ∀ (l : List CreditBalance) (rem : ℚ),
      ((manualLoop rem l).1.map Prod.fst).Sublist (l.map CreditBalance.id) := by
  intro l
  induction l with
  | nil => intro rem; simp [manualLoop]
  | cons c rest ih =>
    intro rem
    simp only [manualLoop]
    split
    · simp
    · simpa using List.Sublist.cons₂ c.id (ih _)

/-- Draw application preserves the id column of the balance table. -/
theorem map_applyDraw_ids (draws : List (Nat × ℚ)) (balances : List CreditBalance) :
    (balances.map (applyDraw draws)).map CreditBalance.id =
      balances.map CreditBalance.id := by
  rw [List.map_map]
  apply List.map_congr_left
  intro b _
  exact (applyDraw_id draws b).1

/-- Sorting a filtered slice of a duplicate-free balance table keeps the ids
duplicate-free. -/
theorem sorted_filter_ids_nodup (balances : List CreditBalance)
    (p : CreditBalance → Bool)
    (hnod : (balances.map CreditBalance.id).Nodup) :
    ((sortByExpiry (balances.filter p)).map CreditBalance.id).Nodup := by
  have hperm : ((sortByExpiry (balances.filter p)).map CreditBalance.id).Perm
      ((balances.filter p).map CreditBalance.id) :=
    (sortByExpiry_perm _).map _
  rw [hperm.nodup_iff]
  exact List.Nodup.sublist ((balances.filter_sublist).map _) hnod

/-- One credit operation preserves duplicate-freeness of balance ids and the
linked-sum relation `txSum = remaining - original`. -/
theorem creditStep_preserves (customers : List Nat) (s : CreditState)
    (op : CreditOp)
    (hnod : (s.balances.map CreditBalance.id).Nodup)
    (hinv : ∀ b ∈ s.balances,
      txSum s.transactions b.id = b.remaining_amount - b.amount) :
    ((creditStep customers s op).balances.map CreditBalance.id).Nodup ∧
    (∀ b ∈ (creditStep customers s op).balances,
      txSum (creditStep customers s op).transactions b.id =
        b.remaining_amount - b.amount) := by
  cases op with
  | grant c a e =>
    have hstep : creditStep customers s (CreditOp.grant c a e) = s := by
      simp only [creditStep, add_credits]
      split
      · rename_i r heq
        have hr : r = (none, s) := by
          split at heq
          · exact (Except.ok.inj heq).symm
          · split at heq
            · exact (Except.ok.inj heq).symm
            · exact Except.noConfusion heq
        rw [hr]
      · rfl
    rw [hstep]
    exact ⟨hnod, hinv⟩
  | applyInvoice c i t =>
    have hkeys :
        (((applyCreditsLoop t (activeCreditsQuery s.balances c)).1).map Prod.fst).Nodup := by
      apply List.Nodup.sublist (applyCreditsLoop_keys_sublist _ _)
      exact sorted_filter_ids_nodup s.balances _ hnod
    simp only [creditStep, applyInvoiceState, _apply_credits_to_invoice]
    constructor
    · rw [map_applyDraw_ids]
      exact hnod
    · exact applyDraws_preserves_invariant s.balances s.transactions _ (some i)
        hkeys hinv
  | applyManual c a i now =>
    simp only [creditStep, apply_credits_manually]
    split
    · exact ⟨hnod, hinv⟩
    · have hkeys : (((manualLoop a (sortByExpiry (s.balances.filter (fun b =>
          decide (b.customer_id = c ∧ b.status = CreditStatus.active ∧
            0 < b.remaining_amount) && notExpired now b)))).1).map Prod.fst).Nodup := by
        apply List.Nodup.sublist (manualLoop_keys_sublist _ _)
        exact sorted_filter_ids_nodup s.balances _ hnod
      constructor
      · rw [map_applyDraw_ids]
        exact hnod
      · exact applyDraws_preserves_invariant s.balances s.transactions _ i
          hkeys hinv

/-- Initial credit store of the C9 example: one freshly granted-looking
balance of 10 with nothing consumed and no logged transactions. -/
def creditStateEx : CreditState :=
  { balances :=
      [{ id := 1, customer_id := 7, amount := 10,
         remaining_amount := 10, status := CreditStatus.active }],
    transactions := [] }

/-- C9 counterexample: the claim asserts that the per-balance transaction sum
equals `original - remaining` and that `add_credits` writes a positive
transaction row attached to the new balance.  In the source `add_credits`
builds its transaction row before the balance is flushed, so the insert
violates the NOT NULL balance link and the grant raises `IntegrityError`
writing nothing; and after manually applying 4 from a balance of 10 the
linked transaction sum is `-4` while `original - remaining = 10 - 6 = 4`. -/
theorem credit_sum_claim_counterexample :
    add_credits [7] creditStateEx 7 10 none = Except.error PyErr.integrityError ∧
    (creditStep [7] creditStateEx (CreditOp.applyManual 7 4 none 0)).balances =
      [{ id := 1, customer_id := 7, amount := 10, remaining_amount := 6,
         status := CreditStatus.active }] ∧
    txSum (creditStep [7] creditStateEx
      (CreditOp.applyManual 7 4 none 0)).transactions 1 = -4 ∧
    ¬((-4 : ℚ) = 10 - 6) := by
  refine ⟨?_, ?_, ?_, by norm_num⟩
  · norm_num [add_credits, creditStateEx]
  · norm_num [creditStep, apply_credits_manually, get_customer_credit_balance,
      notExpired, sortByExpiry, insertByExpiry, expiryLe, manualLoop, applyDraw,
      findDraw, creditStateEx]
  · norm_num [creditStep, apply_credits_manually, get_customer_credit_balance,
      notExpired, sortByExpiry, insertByExpiry, expiryLe, manualLoop, applyDraw,
      findDraw, creditStateEx, txSum]

/-- C9 as amended: `add_credits` on a valid customer and positive amount
always raises `IntegrityError` (its transaction row is built before the new
balance has a primary key, so the NOT NULL balance link is violated and
nothing is written); and for existing balances, after any sequence of grants,
invoice applications and manual applications, the sum of the transaction
amounts linked to a balance equals `remaining_amount - original` (the
negated consumed amount), provided the relation held initially and balance
ids are unique. -/
theorem credit_transaction_sum_amended :
    (∀ (customers : List Nat) (s : CreditState) (c : Nat) (a : ℚ)
      (e : Option ℚ), c ∈ customers → 0 < a →
      add_credits customers s c a e = Except.error PyErr.integrityError) ∧
    (∀ (customers : List Nat) (ops : List CreditOp) (s0 : CreditState),
      (s0.balances.map CreditBalance.id).Nodup →
      (∀ b ∈ s0.balances,
        txSum s0.transactions b.id = b.remaining_amount - b.amount) →
      ∀ b ∈ (ops.foldl (creditStep customers) s0).balances,
        txSum (ops.foldl (creditStep customers) s0).transactions b.id =
          b.remaining_amount - b.amount) := by
  constructor
  · intro customers s c a e hc ha
    simp only [add_credits]
    rw [if_neg (not_not_intro hc), if_neg (not_le.mpr ha)]
  · intro customers ops
    induction ops with
    | nil => intro s0 _ hinv; exact hinv
    | cons op rest ih =>
      intro s0 hnod hinv
      rw [List.foldl_cons]
      obtain ⟨hn', hi'⟩ := creditStep_preserves customers s0 op hnod hinv
      exact ih (creditStep customers s0 op) hn' hi'

/-- Witness for `credit_transaction_sum_amended`: on the one-balance example
store, after a manual application of 4 the linked sum on balance 1 is
`6 - 10`. -/
theorem credit_transaction_sum_amended_witness :
    txSum (([CreditOp.applyManual 7 4 none 0]).foldl
      (creditStep [7]) creditStateEx).transactions 1 = 6 - 10 := by
  have hmem : ({ id := 1, customer_id := 7, amount := 10,
                 remaining_amount := 6, status := CreditStatus.active } : CreditBalance) ∈
      (([CreditOp.applyManual 7 4 none 0]).foldl
        (creditStep [7]) creditStateEx).balances := by
    norm_num [List.foldl, creditStep, apply_credits_manually,
      get_customer_credit_balance, notExpired, sortByExpiry, insertByExpiry,
      expiryLe, manualLoop, applyDraw, findDraw, creditStateEx]
  have h := credit_transaction_sum_amended.2 [7]
    [CreditOp.applyManual 7 4 none 0] creditStateEx
    (by simp [creditStateEx])
    (by
      intro b hb
      simp only [creditStateEx, List.mem_singleton] at hb
      subst hb
      norm_num [txSum, creditStateEx])
    _ hmem
  simpa using h

/-- Metric row (only the columns read during invoice assembly). -/
structure MetricRow where
  id : Nat
  name : String
  deriving DecidableEq, Repr

/-- Price component row. -/
structure PriceComponent where
  metric_name : String
  metric_id : Option Nat := none
  pricing_type : PricingType
  pricing_details : RawDetails
  deriving DecidableEq, Repr

/-- Commitment tier row; `metric_name` is the related metric's name as read
through `commitment.metric.name`. -/
structure CommitmentTier where
  metric_id : Nat
  metric_name : String
  committed_amount : ℚ
  rate : ℚ
  overage_rate : Option ℚ := none
  start_date : ℚ
  end_date : Option ℚ := none
  deriving DecidableEq, Repr

/-- Subscription row with its plan's price components and its commitment
tiers. -/
structure Subscription where
  id : Nat
  customer_id : Nat
  start_date : ℚ
  end_date : Option ℚ := none
  components : List PriceComponent
  commitment_tiers : List CommitmentTier := []
  deriving DecidableEq, Repr

/-- `usage_by_metric.get(name, 0)`. -/
def getUsage (usage_by_metric : List (String × ℚ)) (name : String) : ℚ :=
  (usage_by_metric.lookup name).getD 0

/-- The per-commitment actual charge of
`_calculate_commitment_charges_for_date_range` (billing.py lines 644-658). -/
def commitmentActualCharge (commitment : CommitmentTier) (actual_usage : ℚ) : ℚ :=
  if actual_usage > 0 then
    match commitment.overage_rate with
    | some overage_rate =>
      if actual_usage > commitment.committed_amount then
        commitment.committed_amount * commitment.rate +
          (actual_usage - commitment.committed_amount) * overage_rate
      else actual_usage * commitment.rate
    | none => actual_usage * commitment.rate
  else 0

/-- Python dict assignment `m[k] = v`: replaces in place or appends. -/
def dictInsert (m : List (Nat × ℚ)) (k : Nat) (v : ℚ) : List (Nat × ℚ) :=
  if m.any (fun p => p.1 = k) then m.map (fun p => if p.1 = k then (k, v) else p)
  else m ++ [(k, v)]

/-- Python `dict.get(k, 0)` on the pending-commitment dict. -/
def dictGet : List (Nat × ℚ) → Nat → Option ℚ
  | [], _ => none
  | p :: rest, k => if p.1 = k then some p.2 else dictGet rest k

/-- Python `dict.pop(k, None)`: removes the key, keeping the order of the
remaining entries. -/
def dictPop (m : List (Nat × ℚ)) (k : Nat) : List (Nat × ℚ) :=
  m.filter (fun p => ¬(p.1 = k))

/-- Embedding of `_calculate_commitment_charges_for_date_range`
(billing.py lines 600-664): for each commitment tier overlapping the date
window, record `metric_id -> committed_amount * rate` whenever that committed
charge exceeds the usage-based actual charge. -/
def _calculate_commitment_charges_for_date_range (sub : Subscription)
    (start_date end_date : ℚ) (usage_by_metric : List (String × ℚ)) :
    List (Nat × ℚ) :=
  let commitment_tiers := sub.commitment_tiers.filter (fun c =>
    decide (c.start_date ≤ end_date) &&
      (match c.end_date with
       | none => true
       | some e => decide (start_date ≤ e)))
  commitment_tiers.foldl (fun commitment_charges commitment =>
    let actual_usage := getUsage usage_by_metric commitment.metric_name
    let committed_charge := commitment.committed_amount * commitment.rate
    let actual_charge := commitmentActualCharge commitment actual_usage
    if committed_charge > actual_charge then
      dictInsert commitment_charges commitment.metric_id committed_charge
    else commitment_charges) []

/-- The flat/subscription fee block of `generate_invoice_for_date_range`
(billing.py lines 422-452), entered only when a specific subscription was
requested: each flat or subscription component is evaluated at quantity 1 and
becomes an item with quantity 1. -/
def subscriptionFeeItems (subscription_id : Nat) :
    List PriceComponent → Except PyErr (List InvoiceItem)
  | [] => Except.ok []
  | component :: rest =>
    if component.pricing_type = PricingType.flat ∨
        component.pricing_type = PricingType.subscription then do
      let r ← calculate_charge_for_component component.pricing_type
        component.pricing_details 1
      let items ← subscriptionFeeItems subscription_id rest
      let item : InvoiceItem :=
        { metric_name := some component.metric_name, quantity := some 1,
          unit_price := r.2, amount := r.1,
          subscription_id := some subscription_id }
      Except.ok (item :: items)
    else subscriptionFeeItems subscription_id rest

/-- The usage-charge loop of `generate_invoice_for_date_range`
(billing.py lines 466-519).  With a specific subscription, flat/subscription
components are skipped (they were billed above) and a pending commitment on
the component's metric replaces the evaluated charge when larger, the
commitment being popped from the pending dict in either case; an item is
created when the charge or the usage is positive. -/
def processUsageComponents (subscription_specific : Bool)
    (subscription_id : Nat) (usage_by_metric : List (String × ℚ)) :
    List PriceComponent → List (Nat × ℚ) →
      Except PyErr (List InvoiceItem × List (Nat × ℚ))
  | [], commitment_charges => Except.ok ([], commitment_charges)
  | component :: rest, commitment_charges =>
    if (component.pricing_type = PricingType.flat ∨
        component.pricing_type = PricingType.subscription) ∧
        subscription_specific then
      processUsageComponents subscription_specific subscription_id
        usage_by_metric rest commitment_charges
    else do
      let usage_quantity := getUsage usage_by_metric component.metric_name
      let r ← calculate_charge_for_component component.pricing_type
        component.pricing_details usage_quantity
      let charge0 := r.1
      let overlay : ℚ × List (Nat × ℚ) :=
        match component.metric_id, subscription_specific with
        | some metric_id, true =>
          let commitment_charge := (dictGet commitment_charges metric_id).getD 0
          if commitment_charge > 0 then
            ((if commitment_charge > charge0 then commitment_charge else charge0),
              dictPop commitment_charges metric_id)
          else (charge0, commitment_charges)
        | _, _ => (charge0, commitment_charges)
      let rec_result ← processUsageComponents subscription_specific
        subscription_id usage_by_metric rest overlay.2
      let item : InvoiceItem :=
        { metric_name := some component.metric_name,
          quantity := some usage_quantity, unit_price := r.2,
          amount := overlay.1, subscription_id := some subscription_id }
      if overlay.1 > 0 ∨ usage_quantity > 0 then
        Except.ok (item :: rec_result.1, rec_result.2)
      else Except.ok rec_result

/-- The residual-commitment block of `generate_invoice_for_date_range`
(billing.py lines 521-539): every commitment still pending after the
component loop becomes a standalone item with quantity 0 and unit price 0,
provided its metric exists and its charge is positive. -/
def residualCommitmentItems (metrics : List MetricRow) (subscription_id : Nat)
    (commitment_charges : List (Nat × ℚ)) : List InvoiceItem :=
  commitment_charges.filterMap (fun (p : Nat × ℚ) =>
    match metrics.find? (fun m => m.id = p.1) with
    | some metric =>
      if p.2 > 0 then
        some { metric_name := some metric.name, quantity := some 0,
               unit_price := 0, amount := p.2,
               subscription_id := some subscription_id }
      else none
    | none => none)

/-- Per-subscription item generation inside
`generate_invoice_for_date_range` (billing.py lines 419-539): subscription
fees (specific subscription only), then usage charges overlaid with the
computed commitment minimums, then residual commitments. -/
def processSubscription (subscription_specific : Bool) (metrics : List MetricRow)
    (usage_by_metric : List (String × ℚ)) (start_date end_date : ℚ)
    (sub : Subscription) : Except PyErr (List InvoiceItem) := do
  let feeItems ← if subscription_specific then
      subscriptionFeeItems sub.id sub.components
    else pure []
  let commitment_charges := if subscription_specific then
      _calculate_commitment_charges_for_date_range sub start_date end_date
        usage_by_metric
    else []
  let usage_result ← processUsageComponents subscription_specific sub.id
    usage_by_metric sub.components commitment_charges
  let residual := if subscription_specific then
      residualCommitmentItems metrics sub.id usage_result.2
    else []
  Except.ok (feeItems ++ usage_result.1 ++ residual)

/-- The subscription-set determination of `generate_invoice_for_date_range`
(billing.py lines 361-385): the requested subscription alone when an id is
given (empty if absent), otherwise every subscription of the customer
overlapping the window. -/
def selectSubscriptions (subscriptions : List Subscription)
    (customer_id : Nat) (start_date end_date : ℚ)
    (subscription_id : Option Nat) : List Subscription :=
  match subscription_id with
  | some sid =>
    match subscriptions.find? (fun s => s.id = sid) with
    | some s => [s]
    | none => []
  | none =>
    subscriptions.filter (fun s =>
      decide (s.customer_id = customer_id ∧ s.start_date ≤ end_date) &&
        (match s.end_date with
         | none => true
         | some e => decide (start_date ≤ e)))

/-- Embedding of `BillingEngine.generate_invoice_for_date_range`
(billing.py lines 333-549).  The usage aggregation over events is taken as
the input `usage_by_metric` (it is the output of
`calculate_usage_for_date_range`); invoice numbering and dates are not
modelled.  Returns the invoice items (usage/fee/commitment items followed by
credit items), the final invoice amount after credits, and the updated
credit balances and transactions. -/
def generate_invoice_for_date_range (customers : List Nat)
    (subscriptions : List Subscription) (metrics : List MetricRow)
    (balances : List CreditBalance) (customer_id : Nat)
    (start_date end_date : ℚ) (usage_by_metric : List (String × ℚ))
    (subscription_id : Option Nat) (invoice_id : Nat) :
    Except PyErr
      (List InvoiceItem × ℚ × List CreditBalance × List CreditTransaction) := do
  if ¬ customer_id ∈ customers then
    Except.error PyErr.valueError
  else
    let subs := selectSubscriptions subscriptions customer_id start_date
      end_date subscription_id
    let itemLists ← subs.mapM (processSubscription subscription_id.isSome
      metrics usage_by_metric start_date end_date)
    let items := itemLists.flatten
    let total_amount := (items.map (fun i => i.amount)).sum
    let credit_result := _apply_credits_to_invoice balances customer_id
      invoice_id total_amount
    Except.ok (items ++ credit_result.2.2.1, credit_result.2.2.2,
      credit_result.1, credit_result.2.1)

/-- A flat 10-per-period component bound to metric name "base". -/
def flatComponentEx : PriceComponent :=
  { metric_name := "base", pricing_type := PricingType.flat,
    pricing_details := { amount := some 10 } }

/-- A subscription of customer 7 whose plan carries only the flat component. -/
def subscriptionEx : Subscription :=
  { id := 3, customer_id := 7, start_date := 0, components := [flatComponentEx] }

/-- C5: the claim says the date-range path (no explicit subscription) produces
no line item from a flat or subscription component.  In the source the
flat/subscription skip in the usage loop is gated on `subscription_id`, so
without one a flat component flows through the usage loop, its flat amount is
charged (usage 0 notwithstanding), and the `charge > 0` gate admits the item:
the generated invoice carries a 10-unit line item from the flat component. -/
theorem date_range_path_bills_flat_fee :
    generate_invoice_for_date_range [7] [subscriptionEx] [] [] 7 0 100 [] none 1 =
      Except.ok
        ([{ metric_name := some "base", quantity := some 0, unit_price := 10,
            amount := 10, subscription_id := some 3 }], 10, [], []) := by
  norm_num [generate_invoice_for_date_range, selectSubscriptions,
    processSubscription, processUsageComponents, subscriptionFeeItems,
    residualCommitmentItems, _calculate_commitment_charges_for_date_range,
    calculate_charge_for_component, req, getUsage, _apply_credits_to_invoice,
    activeCreditsQuery, sortByExpiry, applyCreditsLoop, subscriptionEx,
    flatComponentEx, bind, Except.bind, List.mapM, List.mapM.loop, pure,
    Except.pure]

/-- Entries of a Python dict insert: the new binding or an old entry. -/
theorem dictInsert_mem {m : List (Nat × ℚ)} {k : Nat} {v : ℚ} {p : Nat × ℚ}
    (hp : p ∈ dictInsert m k v) : p = (k, v) ∨ p ∈ m := by
  unfold dictInsert at hp
  split at hp
  · simp only [List.mem_map] at hp
    obtain ⟨q, hq, hpq⟩ := hp
    by_cases hk : q.1 = k
    · rw [if_pos hk] at hpq
      exact Or.inl hpq.symm
    · rw [if_neg hk] at hpq
      exact Or.inr (hpq ▸ hq)
  · rcases List.mem_append.mp hp with h | h
    · exact Or.inr h
    · simp only [List.mem_singleton] at h
      exact Or.inl h

/-- The usage-based actual charge of a commitment is non-negative whenever
the rates and usage are. -/
theorem commitmentActualCharge_nonneg (c : CommitmentTier) (u : ℚ)
    (hr : 0 ≤ c.rate) (hc : 0 ≤ c.committed_amount)
    (ho : ∀ o, c.overage_rate = some o → 0 ≤ o) (hu : 0 ≤ u) :
    0 ≤ commitmentActualCharge c u := by
  unfold commitmentActualCharge
  split
  · cases hov : c.overage_rate with
    | none => simp only [hov]; positivity
    | some o =>
      have := ho o hov
      simp only [hov]
      split
      · rename_i hgt
        have h1 : 0 ≤ c.committed_amount * c.rate := by positivity
        have h2 : 0 ≤ (u - c.committed_amount) * o := mul_nonneg (by linarith) this
        linarith
      · positivity
  · exact le_rfl

/-- Every commitment charge computed by the commitment engine is strictly
positive when rates, committed amounts, overage rates and usage are
non-negative. -/
theorem commitment_charges_pos (sub : Subscription) (sd ed : ℚ)
    (usage : List (String × ℚ))
    (hr : ∀ c ∈ sub.commitment_tiers, 0 ≤ c.rate ∧ 0 ≤ c.committed_amount ∧
      ∀ o, c.overage_rate = some o → 0 ≤ o)
    (husage : ∀ name, 0 ≤ getUsage usage name) :
    ∀ p ∈ _calculate_commitment_charges_for_date_range sub sd ed usage,
      0 < p.2 := by
  unfold _calculate_commitment_charges_for_date_range
  have key : ∀ (l : List CommitmentTier),
      (∀ c ∈ l, 0 ≤ c.rate ∧ 0 ≤ c.committed_amount ∧
        ∀ o, c.overage_rate = some o → 0 ≤ o) →
      ∀ (acc : List (Nat × ℚ)), (∀ p ∈ acc, 0 < p.2) →
      ∀ p ∈ l.foldl (fun commitment_charges commitment =>
        let actual_usage := getUsage usage commitment.metric_name
        let committed_charge := commitment.committed_amount * commitment.rate
        let actual_charge := commitmentActualCharge commitment actual_usage
        if committed_charge > actual_charge then
          dictInsert commitment_charges commitment.metric_id committed_charge
        else commitment_charges) acc, 0 < p.2 := by
    intro l
    induction l with
    | nil => intro _ acc hacc p hp; exact hacc p hp
    | cons c rest ih =>
      intro hl acc hacc p hp
      rw [List.foldl_cons] at hp
      obtain ⟨hcr, hcc, hco⟩ := hl c (List.mem_cons_self c rest)
      refine ih (fun c' hc' => hl c' (List.mem_cons_of_mem c hc')) _ ?_ p hp
      intro q hq
      have hq' : q ∈ (if c.committed_amount * c.rate >
          commitmentActualCharge c (getUsage usage c.metric_name) then
            dictInsert acc c.metric_id (c.committed_amount * c.rate)
          else acc) := hq
      split at hq'
      · rcases dictInsert_mem hq' with rfl | hold
        · rename_i hgt
          have h0 : 0 ≤ commitmentActualCharge c (getUsage usage c.metric_name) :=
            commitmentActualCharge_nonneg c _ hcr hcc hco (husage _)
          simpa using lt_of_le_of_lt h0 hgt
        · exact hacc q hold
      · exact hacc q hq'
  intro p hp
  exact key _ (fun c hc => hr c (List.mem_of_mem_filter hc)) [] (by simp) p hp

/-- C2: commitment minimums in invoice assembly with an explicit
subscription.  (1) When the usage loop reaches a component whose `metric_id`
carries a pending commitment minimum `v > 0`, the emitted item's amount is
the evaluated charge replaced by `v` exactly when `v` is greater, and the
loop continues on the pending set with that commitment removed (the item is
always emitted since its amount is positive).  (2) Every commitment still
pending after the loop whose metric exists becomes a standalone line item
with quantity 0, unit price 0 and the committed charge as amount.  (3) The
computed pending minimums are strictly positive under non-negative rates and
usage, so (1) applies to every component whose metric has a computed
minimum. -/
theorem commitment_minimum_application :
    (∀ (sid : Nat) (usage : List (String × ℚ)) (c : PriceComponent)
      (rest : List PriceComponent) (cc : List (Nat × ℚ)) (mid : Nat)
      (v charge unit : ℚ) (items' : List InvoiceItem) (cc2 : List (Nat × ℚ)),
      c.metric_id = some mid →
      dictGet cc mid = some v → 0 < v →
      ¬(c.pricing_type = PricingType.flat ∨
        c.pricing_type = PricingType.subscription) →
      calculate_charge_for_component c.pricing_type c.pricing_details
        (getUsage usage c.metric_name) = Except.ok (charge, unit) →
      processUsageComponents true sid usage rest (dictPop cc mid) =
        Except.ok (items', cc2) →
      processUsageComponents true sid usage (c :: rest) cc =
        Except.ok (({ metric_name := some c.metric_name,
                      quantity := some (getUsage usage c.metric_name),
                      unit_price := unit,
                      amount := if v > charge then v else charge,
                      subscription_id := some sid } : InvoiceItem) :: items',
          cc2)) ∧
    (∀ (metrics : List MetricRow) (sid : Nat) (cc : List (Nat × ℚ))
      (p : Nat × ℚ) (m : MetricRow),
      p ∈ cc → metrics.find? (fun x => x.id = p.1) = some m → 0 < p.2 →
      ({ metric_name := some m.name, quantity := some 0, unit_price := 0,
         amount := p.2, subscription_id := some sid } : InvoiceItem) ∈
        residualCommitmentItems metrics sid cc) ∧
    (∀ (sub : Subscription) (sd ed : ℚ) (usage : List (String × ℚ)),
      (∀ c ∈ sub.commitment_tiers, 0 ≤ c.rate ∧ 0 ≤ c.committed_amount ∧
        ∀ o, c.overage_rate = some o → 0 ≤ o) →
      (∀ name, 0 ≤ getUsage usage name) →
      ∀ p ∈ _calculate_commitment_charges_for_date_range sub sd ed usage,
        0 < p.2) := by
  refine ⟨?_, ?_, ?_⟩
  · intro sid usage c rest cc mid v charge unit items' cc2
      hmid hget hv hns hcalc hrec
    simp only [processUsageComponents]
    rw [if_neg (by rintro ⟨h1, -⟩; exact hns h1)]
    simp only [bind, Except.bind, hcalc, hmid, hget, Option.getD, hrec]
    rw [if_pos hv]
    simp only [hrec]
    rw [if_pos]
    by_cases hvc : v > charge
    · rw [if_pos hvc]
      exact Or.inl hv
    · rw [if_neg hvc]
      exact Or.inl (lt_of_lt_of_le hv (not_lt.mp hvc))
  · intro metrics sid cc p m hp hfind hpos
    unfold residualCommitmentItems
    refine List.mem_filterMap.mpr ⟨p, hp, ?_⟩
    rw [hfind]
    exact if_pos hpos
  · exact commitment_charges_pos

/-- Tiered api_calls component bound to metric id 5 (the claim's scenario). -/
def apiCallsComponent : PriceComponent :=
  { metric_name := "api_calls", metric_id := some 5,
    pricing_type := PricingType.tiered,
    pricing_details := exampleTieredDetails }

/-- Witness for `commitment_minimum_application`: usage 3000 on the tiered
api_calls schedule evaluates to a 20 charge; the pending 40 commitment
minimum replaces it and is consumed, leaving no residual commitments. -/
theorem commitment_minimum_application_witness :
    processUsageComponents true 3 [("api_calls", 3000)] [apiCallsComponent]
      [(5, 40)] =
      Except.ok ([{ metric_name := some "api_calls", quantity := some 3000,
                    unit_price := 1/150, amount := 40,
                    subscription_id := some 3 }], []) := by
  have hcalc : calculate_charge_for_component PricingType.tiered
      exampleTieredDetails (getUsage [("api_calls", 3000)] "api_calls") =
      Except.ok (20, 1/150) := by
    norm_num [getUsage, calculate_charge_for_component, exampleTieredDetails,
      req, rawTieredLoop, bind, Except.bind]
  have hrec : processUsageComponents true 3 [("api_calls", 3000)] []
      (dictPop [(5, 40)] 5) = Except.ok ([], []) := by
    norm_num [processUsageComponents, dictPop]
  have h := commitment_minimum_application.1 3 [("api_calls", 3000)]
    apiCallsComponent [] [(5, 40)] 5 40 20 (1/150) [] [] rfl
    (by norm_num [dictGet]) (by norm_num) (by decide) hcalc hrec
  norm_num at h
  exact h
